import Mathlib

/-!
Verification development for the C-LARA-2 annotation pipeline.

Shallow embedding of the Python modules
`src/pipeline/generic_annotation.py`, `src/core/ai_api.py`,
`src/pipeline/full_pipeline.py`, `src/pipeline/audio.py` and
`src/pipeline/compile_html.py`.  Python dictionaries are modelled as
association lists with Python's update semantics (an existing key is
overwritten in place, a fresh key is appended); JSON values that the code
merely passes through are modelled by an opaque scalar type `AVal` whose
only structure is the distinction between `null` and a non-null payload,
because the merge code inspects values only through `is None` checks.
-/

/-- A JSON-ish annotation value: either `null` (Python `None`) or an opaque
non-null payload carried as a string. -/
inductive AVal where
  | null
  | s (v : String)
  deriving DecidableEq, Repr

/-- A Python dict with `AVal` values, as an ordered association list. -/
abbrev AMap := List (String × AVal)

/-- `m[k]` lookup (first binding wins, as keys are unique in a dict). -/
def alookup (m : AMap) (k : String) : Option AVal :=
  match m with
  | [] => none
  | (k', v) :: rest => if k' = k then some v else alookup rest k

/-- Python `d[k] = v`: overwrite the binding in place if the key exists,
otherwise append it. -/
def aset (m : AMap) (k : String) (v : AVal) : AMap :=
  match m with
  | [] => [(k, v)]
  | (k', v') :: rest => if k' = k then (k, v) :: rest else (k', v') :: aset rest k v

/-- The keys of a dict. -/
def akeys (m : AMap) : List String := m.map Prod.fst

@[simp] theorem alookup_nil (k : String) : alookup [] k = none := rfl

@[simp] theorem alookup_cons (k' k : String) (v : AVal) (rest : AMap) :
    alookup ((k', v) :: rest) k = if k' = k then some v else alookup rest k := rfl

@[simp] theorem aset_nil (k : String) (v : AVal) : aset [] k v = [(k, v)] := rfl

theorem alookup_aset (m : AMap) (k k' : String) (v : AVal) :
    alookup (aset m k v) k' = if k = k' then some v else alookup m k' := by
  induction m with
  | nil => simp [aset]
  | cons hd tl ih =>
    obtain ⟨k₀, v₀⟩ := hd
    by_cases h₀ : k₀ = k
    · subst h₀
      by_cases h₁ : k₀ = k'
      · subst h₁; simp [aset]
      · simp [aset, h₁]
    · by_cases h₁ : k₀ = k'
      · subst h₁
        have hkk' : ¬ k = k₀ := fun h => h₀ h.symm
        simp [aset, h₀, hkk']
      · simp [aset, h₀, h₁, ih]

/-! ## `_merge_annotations` (generic_annotation.py lines 99-108)

```python
def _merge_annotations(base, updates):
    base = dict(base or {})
    if updates:
        for key, value in updates.items():
            if value is None:
                continue
            base[key] = value
    return base
```
-/

/-- One step of the update loop: skip `None` values, otherwise assign. -/
def merge_annotations_step (acc : AMap) (kv : String × AVal) : AMap :=
  if kv.2 = AVal.null then acc else aset acc kv.1 kv.2

/-- `_merge_annotations`.  `none` models an absent (or `None`) argument. -/
def merge_annotations (base updates : Option AMap) : AMap :=
  (updates.getD []).foldl merge_annotations_step (base.getD [])

theorem merge_annotations_none (base : Option AMap) :
    merge_annotations base none = base.getD [] := rfl

/-- The value that the update dict effectively contributes for key `k`:
the last non-null binding of `k`, if any. -/
def lastNonNull (u : AMap) (k : String) : Option AVal :=
  match u with
  | [] => none
  | (k₀, v₀) :: tl =>
    match lastNonNull tl k with
    | some v => some v
    | none => if k₀ = k ∧ v₀ ≠ AVal.null then some v₀ else none

/-- Lookup characterization of the update loop. -/
theorem foldl_merge_step_lookup (u : AMap) (b : AMap) (k : String) :
    alookup (u.foldl merge_annotations_step b) k =
      match lastNonNull u k with
      | some v => some v
      | none => alookup b k := by
  induction u generalizing b with
  | nil => simp [lastNonNull]
  | cons hd tl ih =>
    obtain ⟨k₀, v₀⟩ := hd
    by_cases hnull : v₀ = AVal.null
    · subst hnull
      simp only [List.foldl_cons, merge_annotations_step, if_pos rfl]
      rw [ih]
      cases h : lastNonNull tl k with
      | none => simp [lastNonNull, h]
      | some v => simp [lastNonNull, h]
    · simp only [List.foldl_cons, merge_annotations_step, if_neg hnull, lastNonNull]
      rw [ih]
      by_cases hk : k₀ = k
      · subst hk
        cases h : lastNonNull tl k₀ with
        | none => simp [alookup_aset, h, hnull]
        | some v => simp [h]
      · cases h : lastNonNull tl k with
        | none => simp [alookup_aset, h, hk]
        | some v => simp [h]

/-- `_merge_annotations` lookup rule: the last non-null update value wins,
otherwise the base value is kept. -/
theorem merge_annotations_lookup (base updates : Option AMap) (k : String) :
    alookup (merge_annotations base updates) k =
      match lastNonNull (updates.getD []) k with
      | some v => some v
      | none => alookup (base.getD []) k := by
  unfold merge_annotations
  exact foldl_merge_step_lookup _ _ _

/-! ## Tokens and `_merge_tokens` (generic_annotation.py lines 111-146)

A Python token is a dict; we partition its keys into the distinguished
`surface` and `annotations` entries and the remaining `extra` entries.
`surface = none` models an absent key, `some AVal.null` a key bound to
`None`.  `annotations = none` models an absent key; the code treats a
key bound to `None` the same way (`update.get("annotations")`), so a
present-`None` annotations entry is also modelled by `none`. -/

structure Token where
  surface : Option AVal := none
  annotations : Option AMap := none
  extra : AMap := []
  deriving DecidableEq, Repr

/-- Python truthiness of the token dict (`if update:`): at least one key. -/
def Token.nonEmptyDict (t : Token) : Bool :=
  t.surface.isSome || t.annotations.isSome || !t.extra.isEmpty

/-- The empty token dict (`{}`), used for padding past the shorter list. -/
def emptyToken : Token := {}

/-- The body of the `for idx in range(max_len)` loop of `_merge_tokens`:

```python
token = dict(base)
if update:
    token["surface"] = update.get("surface", token.get("surface", ""))
    token.update({k: v for k, v in update.items()
                  if k not in {"annotations", "surface"} and v is not None})
annotations = _merge_annotations(base.get("annotations"), update.get("annotations"))
if annotations:
    token["annotations"] = annotations
elif "annotations" in token and not token["annotations"]:
    token.pop("annotations", None)
merged.append({k: v for k, v in token.items() if v is not None})
``` -/
def merge_one_token (base update : Token) : Token :=
  let afterUpdate : Token :=
    if update.nonEmptyDict then
      { surface := some (update.surface.getD (base.surface.getD (AVal.s "")))
        annotations := base.annotations
        extra := (update.extra.filter (fun kv => kv.2 ≠ AVal.null)).foldl
          (fun acc kv => aset acc kv.1 kv.2) base.extra }
    else base
  let anns := merge_annotations base.annotations update.annotations
  let withAnns : Token :=
    if anns.isEmpty then
      { afterUpdate with annotations := none }
    else
      { afterUpdate with annotations := some anns }
  -- final `{k: v for k, v in token.items() if v is not None}`
  { surface := match withAnns.surface with
      | some AVal.null => none
      | x => x
    annotations := withAnns.annotations
    extra := withAnns.extra.filter (fun kv => kv.2 ≠ AVal.null) }

/-- `_merge_tokens`: positional merge, padding the shorter list with `{}`. -/
def merge_tokens (base_tokens response_tokens : Option (List Token)) : List Token :=
  let b := base_tokens.getD []
  let r := response_tokens.getD []
  if b.isEmpty && r.isEmpty then []
  else
    (List.range (max b.length r.length)).map (fun idx =>
      merge_one_token (b.getD idx emptyToken) (r.getD idx emptyToken))

/-! ## Segments and `_merge_segment` (generic_annotation.py lines 80-96)

```python
merged = dict(segment)
annotations = _merge_annotations(segment.get("annotations"), response.get("annotations"))
if annotations:
    merged["annotations"] = annotations
tokens = _merge_tokens(segment.get("tokens", []), response.get("tokens"))
if tokens:
    merged["tokens"] = tokens
for key, value in response.items():
    if key in {"annotations", "tokens"} or value is None:
        continue
    merged[key] = value
return merged
``` -/

structure Segment where
  surface : Option AVal := none
  tokens : Option (List Token) := none
  annotations : Option AMap := none
  extra : AMap := []
  deriving DecidableEq, Repr

/-- The empty response dict `{}` used when a segment got no response. -/
def emptySegment : Segment := {}

def merge_segment (segment response : Segment) : Segment :=
  let anns := merge_annotations segment.annotations response.annotations
  let toks := merge_tokens segment.tokens response.tokens
  { surface := match response.surface with
      | some AVal.null => segment.surface
      | none => segment.surface
      | some v => some v
    annotations := if anns.isEmpty then segment.annotations else some anns
    tokens := if toks.isEmpty then segment.tokens else some toks
    extra := (response.extra.filter (fun kv => kv.2 ≠ AVal.null)).foldl
      (fun acc kv => aset acc kv.1 kv.2) segment.extra }

/-! ## Pages, documents and `generic_annotation` (lines 25-77) -/

structure Page where
  surface : Option AVal := none
  segments : List Segment := []
  annotations : Option AMap := none
  deriving DecidableEq, Repr

structure TextDoc where
  l2 : Option AVal := none
  l1 : Option AVal := none
  title : Option AVal := none
  surface : Option AVal := none
  pages : List Page := []
  annotations : Option AMap := none
  deriving DecidableEq, Repr

/-- Drop a field whose computed value is Python `None`
(the final `{k: v for k, v in normalized.items() if v is not None}`). -/
def dropNull (v : AVal) : Option AVal :=
  match v with
  | AVal.null => none
  | v => some v

/-- `generic_annotation` (the run function of generic_annotation.py): one
`chat_json` response per `(page, segment)`
pair (`responses p s`, `none` standing for the `{}` default of
`results.get((page_idx, seg_idx), {})`), merged per segment; pages and the
document shell are rebuilt with the original surfaces and annotations. -/
def generic_annotation_stage (language : String) (text : TextDoc)
    (responses : Nat → Nat → Option Segment) : TextDoc :=
  let new_pages := (text.pages.enum).map (fun pi =>
    let page_idx := pi.1
    let page := pi.2
    { surface := some (page.surface.getD (AVal.s ""))
      segments := (page.segments.enum).map (fun si =>
        merge_segment si.2 ((responses page_idx si.1).getD emptySegment))
      annotations := some (page.annotations.getD []) : Page })
  { l2 := dropNull (text.l2.getD (AVal.s language))
    l1 := match text.l1 with
      | some AVal.null => none
      | x => x
    title := match text.title with
      | some AVal.null => none
      | x => x
    surface := dropNull (text.surface.getD (AVal.s ""))
    pages := new_pages
    annotations := some (text.annotations.getD []) }

/-! ## Helper lemmas about the merge -/

theorem aset_length_ge (m : AMap) (k : String) (v : AVal) :
    m.length ≤ (aset m k v).length := by
  induction m with
  | nil => simp [aset]
  | cons hd tl ih =>
    obtain ⟨k', v'⟩ := hd
    by_cases h : k' = k <;> simp [aset, h]
    · exact ih

theorem merge_step_length_ge (acc : AMap) (kv : String × AVal) :
    acc.length ≤ (merge_annotations_step acc kv).length := by
  unfold merge_annotations_step
  by_cases h : kv.2 = AVal.null
  · simp [h]
  · simpa [h] using aset_length_ge acc kv.1 kv.2

theorem foldl_merge_step_length_ge (u : AMap) (b : AMap) :
    b.length ≤ (u.foldl merge_annotations_step b).length := by
  induction u generalizing b with
  | nil => simp
  | cons hd tl ih =>
    calc b.length ≤ (merge_annotations_step b hd).length := merge_step_length_ge b hd
    _ ≤ _ := ih _

/-- If the merged annotation dict is empty, the base dict was empty. -/
theorem base_empty_of_merge_empty (base updates : Option AMap)
    (h : merge_annotations base updates = []) : base.getD [] = [] := by
  have := foldl_merge_step_length_ge (updates.getD []) (base.getD [])
  rw [show (updates.getD []).foldl merge_annotations_step (base.getD []) =
    merge_annotations base updates from rfl, h] at this
  simpa using List.length_eq_zero.mp (Nat.le_zero.mp this)

/-- Annotation lookup on a merged token equals lookup in
`_merge_annotations` of the two annotation dicts (the `pop` of an empty
dict does not change lookups). -/
theorem merge_one_token_ann_lookup (b u : Token) (k : String) :
    alookup ((merge_one_token b u).annotations.getD []) k =
      alookup (merge_annotations b.annotations u.annotations) k := by
  unfold merge_one_token
  by_cases he : (merge_annotations b.annotations u.annotations).isEmpty
  · rw [List.isEmpty_iff] at he
    simp [he]
  · simp [he]

/-- Annotation lookup on a merged segment equals lookup in
`_merge_annotations` of the two annotation dicts. -/
theorem merge_segment_ann_lookup (s r : Segment) (k : String) :
    alookup ((merge_segment s r).annotations.getD []) k =
      alookup (merge_annotations s.annotations r.annotations) k := by
  unfold merge_segment
  by_cases he : (merge_annotations s.annotations r.annotations).isEmpty
  · rw [List.isEmpty_iff] at he
    have hbase := base_empty_of_merge_empty s.annotations r.annotations he
    simp [he, hbase]
  · simp [he]

theorem lastNonNull_of_not_mem (u : AMap) (k : String) (h : k ∉ akeys u) :
    lastNonNull u k = none := by
  induction u with
  | nil => rfl
  | cons hd tl ih =>
    obtain ⟨k₀, v₀⟩ := hd
    simp only [akeys, List.map_cons, List.mem_cons, not_or] at h
    rw [lastNonNull, ih (by simpa [akeys] using h.2)]
    have hne : ¬ (k₀ = k) := fun hk => h.1 hk.symm
    simp [hne]

theorem alookup_of_not_mem (u : AMap) (k : String) (h : k ∉ akeys u) :
    alookup u k = none := by
  induction u with
  | nil => rfl
  | cons hd tl ih =>
    obtain ⟨k₀, v₀⟩ := hd
    simp only [akeys, List.map_cons, List.mem_cons, not_or] at h
    rw [alookup, if_neg (fun hk : k₀ = k => h.1 hk.symm)]
    exact ih (by simpa [akeys] using h.2)

/-- With unique keys (every Python dict), the effective update value for a
key is its unique binding when that is non-null. -/
theorem lastNonNull_of_nodup (u : AMap) (k : String) (h : (akeys u).Nodup) :
    lastNonNull u k =
      match alookup u k with
      | some v => if v = AVal.null then none else some v
      | none => none := by
  induction u with
  | nil => rfl
  | cons hd tl ih =>
    obtain ⟨k₀, v₀⟩ := hd
    simp only [akeys, List.map_cons, List.nodup_cons] at h
    by_cases hk : k₀ = k
    · subst hk
      have hnot : k₀ ∉ akeys tl := h.1
      rw [lastNonNull, lastNonNull_of_not_mem tl k₀ hnot]
      by_cases hv : v₀ = AVal.null <;> simp [hv]
    · rw [lastNonNull, ih h.2]
      cases halo : alookup tl k with
      | none => simp [halo, hk]
      | some v =>
        by_cases hv : v = AVal.null <;> simp [halo, hv, hk]

/-- Full lookup rule for `_merge_annotations` on dicts with unique keys:
non-null update values win, null values are skipped, everything else is
kept from the base, and the base's keys all survive. -/
theorem merge_annotations_rule (bo uo : Option AMap) (k : String)
    (h : (akeys (uo.getD [])).Nodup) :
    (∀ v, v ≠ AVal.null → alookup (uo.getD []) k = some v →
        alookup (merge_annotations bo uo) k = some v) ∧
    (alookup (uo.getD []) k = none →
        alookup (merge_annotations bo uo) k = alookup (bo.getD []) k) ∧
    (alookup (uo.getD []) k = some AVal.null →
        alookup (merge_annotations bo uo) k = alookup (bo.getD []) k) ∧
    (∀ v, alookup (bo.getD []) k = some v →
        (alookup (merge_annotations bo uo) k).isSome) := by
  have hrule := merge_annotations_lookup bo uo k
  rw [lastNonNull_of_nodup _ _ h] at hrule
  refine ⟨?_, ?_, ?_, ?_⟩
  · intro v hv hl
    rw [hrule, hl]
    simp [hv]
  · intro hl
    rw [hrule, hl]
  · intro hl
    rw [hrule, hl]
    simp
  · intro v hv
    rw [hrule]
    cases hl : alookup (uo.getD []) k with
    | none => simp [hv]
    | some w =>
      by_cases hw : w = AVal.null <;> simp [hw, hv]

/-- Surface of a merged token when the response token has no `surface`
key and the base token's surface is a string. -/
theorem merge_one_token_surface_pres (b u : Token) (str : String)
    (hb : b.surface = some (AVal.s str)) (hu : u.surface = none) :
    (merge_one_token b u).surface = some (AVal.s str) := by
  unfold merge_one_token
  by_cases hne : u.nonEmptyDict <;>
    by_cases he : (merge_annotations b.annotations u.annotations).isEmpty <;>
      simp [hne, he, hb, hu]

/-- Surface of a merged segment when the response provides no (or a null)
`surface` value. -/
theorem merge_segment_surface_pres (s r : Segment)
    (h : r.surface = none ∨ r.surface = some AVal.null) :
    (merge_segment s r).surface = s.surface := by
  rcases h with h | h <;> simp [merge_segment, h]

/-- C1 as stated is false: `_merge_segment` takes a `surface` provided by
the model response, both at segment level (the `response.items()` loop)
and at token level (`update.get("surface", ...)`). -/
def segC1 : Segment :=
  { surface := some (AVal.s "original")
    tokens := some [{ surface := some (AVal.s "tokoriginal") }] }

def respC1 : Segment :=
  { surface := some (AVal.s "REWRITTEN")
    tokens := some [{ surface := some (AVal.s "TOKREWRITTEN") }] }

/-- C1, counterexample: merging the response `respC1` into the segment
`segC1` replaces both the segment's `surface` and the token's `surface`
with values taken from the model response, so `surface` is not
byte-identical before and after an annotation stage. -/
theorem C1_counterexample :
    segC1.surface = some (AVal.s "original") ∧
    (merge_segment segC1 respC1).surface = some (AVal.s "REWRITTEN") ∧
    ((segC1.tokens.getD []).map Token.surface) = [some (AVal.s "tokoriginal")] ∧
    (((merge_segment segC1 respC1).tokens.getD []).map Token.surface) =
      [some (AVal.s "TOKREWRITTEN")] := by
  refine ⟨rfl, ?_, rfl, ?_⟩ <;> decide

/-- C2: in the per-segment merge, the annotation map at segment and token
level follows the union rule — a returned non-null value wins on key
conflict, existing values are kept for keys absent from the response, a
null response value never removes or overwrites an existing key, and the
maps only grow (every existing key still has a value after the merge). -/
theorem C2_annotation_merge_rule (s r : Segment) (b u : Token) (k : String)
    (hr : (akeys (r.annotations.getD [])).Nodup)
    (hu : (akeys (u.annotations.getD [])).Nodup) :
    ((∀ v, v ≠ AVal.null → alookup (r.annotations.getD []) k = some v →
        alookup ((merge_segment s r).annotations.getD []) k = some v) ∧
     (alookup (r.annotations.getD []) k = none →
        alookup ((merge_segment s r).annotations.getD []) k =
          alookup (s.annotations.getD []) k) ∧
     (alookup (r.annotations.getD []) k = some AVal.null →
        alookup ((merge_segment s r).annotations.getD []) k =
          alookup (s.annotations.getD []) k) ∧
     (∀ v, alookup (s.annotations.getD []) k = some v →
        (alookup ((merge_segment s r).annotations.getD []) k).isSome)) ∧
    ((∀ v, v ≠ AVal.null → alookup (u.annotations.getD []) k = some v →
        alookup ((merge_one_token b u).annotations.getD []) k = some v) ∧
     (alookup (u.annotations.getD []) k = none →
        alookup ((merge_one_token b u).annotations.getD []) k =
          alookup (b.annotations.getD []) k) ∧
     (alookup (u.annotations.getD []) k = some AVal.null →
        alookup ((merge_one_token b u).annotations.getD []) k =
          alookup (b.annotations.getD []) k) ∧
     (∀ v, alookup (b.annotations.getD []) k = some v →
        (alookup ((merge_one_token b u).annotations.getD []) k).isSome)) := by
  obtain ⟨hs1, hs2, hs3, hs4⟩ := merge_annotations_rule s.annotations r.annotations k hr
  obtain ⟨ht1, ht2, ht3, ht4⟩ := merge_annotations_rule b.annotations u.annotations k hu
  rw [merge_segment_ann_lookup, merge_one_token_ann_lookup]
  exact ⟨⟨hs1, hs2, hs3, hs4⟩, ⟨ht1, ht2, ht3, ht4⟩⟩

/-- Concrete segment, response, base token and update token used by the
witness of `C2_annotation_merge_rule`. -/
def segC2 : Segment :=
  { annotations := some [("translation", AVal.s "old"), ("keep", AVal.s "kept")] }

def respC2 : Segment :=
  { annotations := some [("translation", AVal.s "new"), ("drop", AVal.null)] }

def tokC2 : Token :=
  { annotations := some [("lemma", AVal.s "old"), ("keep", AVal.s "kept")] }

def tokRespC2 : Token :=
  { annotations := some [("lemma", AVal.s "new"), ("drop", AVal.null)] }

theorem C2_annotation_merge_rule_witness :
    (akeys ((respC2.annotations).getD [])).Nodup ∧
    (akeys ((tokRespC2.annotations).getD [])).Nodup ∧
    ((∀ v, v ≠ AVal.null → alookup (respC2.annotations.getD []) "translation" = some v →
        alookup ((merge_segment segC2 respC2).annotations.getD []) "translation" = some v) ∧
     (alookup (respC2.annotations.getD []) "translation" = none →
        alookup ((merge_segment segC2 respC2).annotations.getD []) "translation" =
          alookup (segC2.annotations.getD []) "translation") ∧
     (alookup (respC2.annotations.getD []) "translation" = some AVal.null →
        alookup ((merge_segment segC2 respC2).annotations.getD []) "translation" =
          alookup (segC2.annotations.getD []) "translation") ∧
     (∀ v, alookup (segC2.annotations.getD []) "translation" = some v →
        (alookup ((merge_segment segC2 respC2).annotations.getD []) "translation").isSome)) ∧
    ((∀ v, v ≠ AVal.null → alookup (tokRespC2.annotations.getD []) "translation" = some v →
        alookup ((merge_one_token tokC2 tokRespC2).annotations.getD []) "translation" = some v) ∧
     (alookup (tokRespC2.annotations.getD []) "translation" = none →
        alookup ((merge_one_token tokC2 tokRespC2).annotations.getD []) "translation" =
          alookup (tokC2.annotations.getD []) "translation") ∧
     (alookup (tokRespC2.annotations.getD []) "translation" = some AVal.null →
        alookup ((merge_one_token tokC2 tokRespC2).annotations.getD []) "translation" =
          alookup (tokC2.annotations.getD []) "translation") ∧
     (∀ v, alookup (tokC2.annotations.getD []) "translation" = some v →
        (alookup ((merge_one_token tokC2 tokRespC2).annotations.getD []) "translation").isSome)) :=
  ⟨by decide, by decide,
    C2_annotation_merge_rule segC2 respC2 tokC2 tokRespC2 "translation"
      (by decide) (by decide)⟩

/-- Element `i` of `_merge_tokens` when the base list has an `i`-th token. -/
theorem merge_tokens_get (bt rt : Option (List Token)) (i : Nat) (t : Token)
    (ht : (bt.getD [])[i]? = some t) :
    (merge_tokens bt rt)[i]? =
      some (merge_one_token t ((rt.getD []).getD i emptyToken)) := by
  have hlen : i < (bt.getD []).length := by
    by_contra hge
    rw [List.getElem?_eq_none (Nat.le_of_not_lt hge)] at ht
    exact Option.noConfusion ht
  have hne : (bt.getD []).isEmpty = false := by
    cases hb : bt.getD [] with
    | nil => rw [hb] at hlen; exact absurd hlen (by simp)
    | cons hd tl => simp
  unfold merge_tokens
  rw [if_neg (by simp [hne])]
  have hmax : i < max (bt.getD []).length (rt.getD []).length :=
    Nat.lt_of_lt_of_le hlen (Nat.le_max_left _ _)
  rw [List.getElem?_map, List.getElem?_range hmax]
  simp only [Option.map_some']
  congr 1
  have : (bt.getD []).getD i emptyToken = t := by
    rw [List.getD_eq_getElem?_getD, ht]
    rfl
  rw [this]

/-- Element `i` of a merged segment's token list when the base segment has
an `i`-th token. -/
theorem merge_segment_tokens_get (s r : Segment) (i : Nat) (t : Token)
    (ht : (s.tokens.getD [])[i]? = some t) :
    ((merge_segment s r).tokens.getD [])[i]? =
      some (merge_one_token t ((r.tokens.getD []).getD i emptyToken)) := by
  have hmerge := merge_tokens_get s.tokens r.tokens i t ht
  have hne : (merge_tokens s.tokens r.tokens).isEmpty = false := by
    cases hm : merge_tokens s.tokens r.tokens with
    | nil => rw [hm] at hmerge; exact absurd hmerge (by simp)
    | cons hd tl => simp
  unfold merge_segment
  simp only [hne, Bool.false_eq_true, if_false, Option.getD_some]
  exact hmerge

/-- C1 (amended): text- and page-level surfaces are never taken from the
response; a segment's or token's surface is preserved by the merge
whenever the response supplies no (or a null) segment `surface` and the
response tokens carry no `surface` key, provided the existing token
surfaces are strings.  (The unamended claim is refuted by
`C1_counterexample`: a response-supplied non-null surface overwrites the
existing one at segment and token level.) -/
theorem C1_amended_surface_preservation (language : String) (text : TextDoc)
    (responses : Nat → Nat → Option Segment)
    (hresp : ∀ p s seg, responses p s = some seg →
      (seg.surface = none ∨ seg.surface = some AVal.null) ∧
      ∀ t ∈ seg.tokens.getD [], t.surface = none)
    (hbase : ∀ page ∈ text.pages, ∀ seg ∈ page.segments, ∀ t ∈ seg.tokens.getD [],
      ∃ str, t.surface = some (AVal.s str)) :
    (∀ str, text.surface = some (AVal.s str) →
      (generic_annotation_stage language text responses).surface = some (AVal.s str)) ∧
    (∀ (p : Nat) (page : Page), text.pages[p]? = some page →
      ∃ page' : Page,
        (generic_annotation_stage language text responses).pages[p]? = some page' ∧
        (∀ str, page.surface = some (AVal.s str) →
            page'.surface = some (AVal.s str)) ∧
        (∀ (si : Nat) (seg : Segment), page.segments[si]? = some seg →
          ∃ seg' : Segment, page'.segments[si]? = some seg' ∧
            seg'.surface = seg.surface ∧
            ∀ (i : Nat) (t : Token), (seg.tokens.getD [])[i]? = some t →
              ∃ t' : Token, (seg'.tokens.getD [])[i]? = some t' ∧
                t'.surface = t.surface)) := by
  constructor
  · intro str hstr
    simp [generic_annotation_stage, hstr, dropNull]
  · intro p page hpage
    have hpmem : page ∈ text.pages := List.getElem?_mem hpage
    have hout : (generic_annotation_stage language text responses).pages[p]? =
        some { surface := some (page.surface.getD (AVal.s ""))
               segments := (page.segments.enum).map (fun si =>
                 merge_segment si.2 ((responses p si.1).getD emptySegment))
               annotations := some (page.annotations.getD []) } := by
      unfold generic_annotation_stage
      simp only [List.getElem?_map, List.getElem?_enum, hpage, Option.map_some']
    refine ⟨_, hout, ?_, ?_⟩
    · intro str hstr
      simp [hstr]
    · intro si seg hseg
      have hsmem : seg ∈ page.segments := List.getElem?_mem hseg
      refine ⟨merge_segment seg ((responses p si).getD emptySegment), ?_, ?_, ?_⟩
      · simp only [List.getElem?_map, List.getElem?_enum, hseg, Option.map_some']
      · apply merge_segment_surface_pres
        cases hr : responses p si with
        | none => left; rfl
        | some rs => exact (hresp p si rs hr).1
      · intro i t ht
        refine ⟨_, merge_segment_tokens_get _ _ i t ht, ?_⟩
        obtain ⟨str, hstr⟩ := hbase page hpmem seg hsmem t (List.getElem?_mem ht)
        rw [hstr]
        apply merge_one_token_surface_pres _ _ _ hstr
        cases hr : responses p si with
        | none => rfl
        | some rs =>
          cases hu : ((rs.tokens.getD []))[i]? with
          | none =>
            simp only [hr, Option.getD_some, List.getD_eq_getElem?_getD, hu]
            rfl
          | some ut =>
            have := (hresp p si rs hr).2 ut (List.getElem?_mem hu)
            simp only [hr, Option.getD_some, List.getD_eq_getElem?_getD, hu]
            exact this

/-- Concrete document and responses for the witness of
`C1_amended_surface_preservation`. -/
def tokW : Token := { surface := some (AVal.s "cat") }

def segW : Segment := { surface := some (AVal.s "A cat."), tokens := some [tokW] }

def pageW : Page := { surface := some (AVal.s "A cat."), segments := [segW] }

def textW : TextDoc := { surface := some (AVal.s "A cat."), pages := [pageW] }

def respW : Segment :=
  { tokens := some [{ annotations := some [("lemma", AVal.s "cat")] }] }

def responsesW : Nat → Nat → Option Segment := fun _ _ => some respW

theorem C1_amended_surface_preservation_witness :
    (∀ p s seg, responsesW p s = some seg →
      (seg.surface = none ∨ seg.surface = some AVal.null) ∧
      ∀ t ∈ seg.tokens.getD [], t.surface = none) ∧
    (∀ page ∈ textW.pages, ∀ seg ∈ page.segments, ∀ t ∈ seg.tokens.getD [],
      ∃ str, t.surface = some (AVal.s str)) ∧
    ((∀ str, textW.surface = some (AVal.s str) →
      (generic_annotation_stage "en" textW responsesW).surface = some (AVal.s str)) ∧
    (∀ (p : Nat) (page : Page), textW.pages[p]? = some page →
      ∃ page' : Page,
        (generic_annotation_stage "en" textW responsesW).pages[p]? = some page' ∧
        (∀ str, page.surface = some (AVal.s str) →
            page'.surface = some (AVal.s str)) ∧
        (∀ (si : Nat) (seg : Segment), page.segments[si]? = some seg →
          ∃ seg' : Segment, page'.segments[si]? = some seg' ∧
            seg'.surface = seg.surface ∧
            ∀ (i : Nat) (t : Token), (seg.tokens.getD [])[i]? = some t →
              ∃ t' : Token, (seg'.tokens.getD [])[i]? = some t' ∧
                t'.surface = t.surface))) := by
  have h1 : ∀ p s seg, responsesW p s = some seg →
      (seg.surface = none ∨ seg.surface = some AVal.null) ∧
      ∀ t ∈ seg.tokens.getD [], t.surface = none := by
    intro p s seg h
    injection h with h'
    subst h'
    decide
  have h2 : ∀ page ∈ textW.pages, ∀ seg ∈ page.segments, ∀ t ∈ seg.tokens.getD [],
      ∃ str, t.surface = some (AVal.s str) := by
    intro page hp seg hs t htk
    rw [show textW.pages = [pageW] from rfl, List.mem_singleton] at hp
    subst hp
    rw [show pageW.segments = [segW] from rfl, List.mem_singleton] at hs
    subst hs
    rw [show segW.tokens.getD [] = [tokW] from rfl, List.mem_singleton] at htk
    subst htk
    exact ⟨"cat", rfl⟩
  exact ⟨h1, h2, C1_amended_surface_preservation "en" textW responsesW h1 h2⟩

/-! ## MWE consistency (claim C8)

The lemma/gloss stages call `generic_annotation_stage` with a prompt that merely
instructs the model ("Tokens that share the same annotations.mwe_id should
share the same lemma", lemma.py line 46); no code enforces the property,
so it holds exactly when the responses comply. -/

/-- Annotation value of a token (`token.get("annotations", {}).get(k)`). -/
def annVal (t : Token) (k : String) : Option AVal :=
  alookup (t.annotations.getD []) k

/-- Base token at position `i` (`{}` past the end of the list). -/
def baseTok (s : Segment) (i : Nat) : Token := (s.tokens.getD []).getD i emptyToken

/-- Response token at position `i` (`{}` past the end of the list). -/
def respTok (r : Segment) (i : Nat) : Token := (r.tokens.getD []).getD i emptyToken

/-- Token at position `i` of the merged segment. -/
def mergedTok (s r : Segment) (i : Nat) : Token :=
  ((merge_segment s r).tokens.getD []).getD i emptyToken

theorem merge_segment_tokens_def (s r : Segment) :
    (merge_segment s r).tokens =
      if (merge_tokens s.tokens r.tokens).isEmpty then s.tokens
      else some (merge_tokens s.tokens r.tokens) := rfl

/-- Annotation lookup of the `i`-th merged token follows the union rule of
the `i`-th base and response tokens. -/
theorem mergedTok_annVal (s r : Segment) (i : Nat) (k : String) :
    annVal (mergedTok s r i) k =
      match lastNonNull ((respTok r i).annotations.getD []) k with
      | some v => some v
      | none => annVal (baseTok s i) k := by
  unfold mergedTok
  by_cases hbe : ((s.tokens.getD []).isEmpty && (r.tokens.getD []).isEmpty) = true
  · obtain ⟨hs, hr⟩ := Bool.and_eq_true_iff.mp hbe
    rw [List.isEmpty_iff] at hs hr
    have htoks : merge_tokens s.tokens r.tokens = [] := by
      unfold merge_tokens
      rw [if_pos (by rw [hs, hr]; rfl)]
    rw [merge_segment_tokens_def, htoks]
    simp only [List.isEmpty_nil, if_pos rfl, hs]
    simp [baseTok, respTok, hs, hr, annVal, emptyToken, lastNonNull, List.getD]
  · have htoks : merge_tokens s.tokens r.tokens =
        (List.range (max (s.tokens.getD []).length (r.tokens.getD []).length)).map
          (fun idx => merge_one_token ((s.tokens.getD []).getD idx emptyToken)
            ((r.tokens.getD []).getD idx emptyToken)) := by
      unfold merge_tokens
      rw [if_neg hbe]
    have hone : s.tokens.getD [] ≠ [] ∨ r.tokens.getD [] ≠ [] := by
      by_contra h
      push_neg at h
      exact hbe (by rw [h.1, h.2]; rfl)
    have hmaxpos :
        0 < max (s.tokens.getD []).length (r.tokens.getD []).length := by
      rcases hone with h | h
      · exact Nat.lt_of_lt_of_le (List.length_pos.mpr h) (Nat.le_max_left _ _)
      · exact Nat.lt_of_lt_of_le (List.length_pos.mpr h) (Nat.le_max_right _ _)
    have hlen : (merge_tokens s.tokens r.tokens).length =
        max (s.tokens.getD []).length (r.tokens.getD []).length := by
      rw [htoks]
      simp
    have hne : (merge_tokens s.tokens r.tokens).isEmpty = false := by
      cases hc : merge_tokens s.tokens r.tokens with
      | nil =>
        rw [hc] at hlen
        simp at hlen
        omega
      | cons hd tl => simp
    rw [merge_segment_tokens_def, if_neg (by rw [hne]; exact Bool.false_ne_true),
      Option.getD_some, htoks]
    by_cases hi : i < max (s.tokens.getD []).length (r.tokens.getD []).length
    · have hgd : ((List.range (max (s.tokens.getD []).length
            (r.tokens.getD []).length)).map
          (fun idx => merge_one_token ((s.tokens.getD []).getD idx emptyToken)
            ((r.tokens.getD []).getD idx emptyToken))).getD i emptyToken =
          merge_one_token (baseTok s i) (respTok r i) := by
        rw [List.getD_eq_getElem?_getD, List.getElem?_map, List.getElem?_range hi]
        rfl
      rw [hgd]
      unfold annVal
      rw [merge_one_token_ann_lookup, merge_annotations_lookup]
    · have hgd : ((List.range (max (s.tokens.getD []).length
            (r.tokens.getD []).length)).map
          (fun idx => merge_one_token ((s.tokens.getD []).getD idx emptyToken)
            ((r.tokens.getD []).getD idx emptyToken))).getD i emptyToken =
          emptyToken := by
        rw [List.getD_eq_getElem?_getD, List.getElem?_eq_none (by simp; omega)]
        rfl
      have hbi : baseTok s i = emptyToken := by
        unfold baseTok
        rw [List.getD_eq_getElem?_getD,
          List.getElem?_eq_none (by
            have := Nat.le_max_left (s.tokens.getD []).length
              (r.tokens.getD []).length
            omega)]
        rfl
      have hri : respTok r i = emptyToken := by
        unfold respTok
        rw [List.getD_eq_getElem?_getD,
          List.getElem?_eq_none (by
            have := Nat.le_max_right (s.tokens.getD []).length
              (r.tokens.getD []).length
            omega)]
        rfl
      rw [hgd, hbi, hri]
      rfl

/-- Segment and response used to refute C8: two tokens share `mwe_id`
`"m1"` but the lemma-stage response assigns them different lemmas and
glosses, and the merge stores the inconsistent values verbatim. -/
def segC8 : Segment :=
  { tokens := some
      [{ surface := some (AVal.s "put"),
         annotations := some [("mwe_id", AVal.s "m1")] },
       { surface := some (AVal.s "up"),
         annotations := some [("mwe_id", AVal.s "m1")] }] }

def respC8 : Segment :=
  { tokens := some
      [{ annotations := some [("lemma", AVal.s "put up"), ("gloss", AVal.s "tolerate")] },
       { annotations := some [("lemma", AVal.s "up"), ("gloss", AVal.s "upward")] }] }

/-- C8, counterexample: nothing in the merge enforces MWE consistency —
with a non-compliant model response, the two tokens of one MWE end up
with different `lemma` and `gloss` values. -/
theorem C8_counterexample :
    annVal (mergedTok segC8 respC8 0) "mwe_id" = some (AVal.s "m1") ∧
    annVal (mergedTok segC8 respC8 1) "mwe_id" = some (AVal.s "m1") ∧
    annVal (mergedTok segC8 respC8 0) "lemma" = some (AVal.s "put up") ∧
    annVal (mergedTok segC8 respC8 1) "lemma" = some (AVal.s "up") ∧
    annVal (mergedTok segC8 respC8 0) "lemma" ≠
      annVal (mergedTok segC8 respC8 1) "lemma" ∧
    annVal (mergedTok segC8 respC8 0) "gloss" ≠
      annVal (mergedTok segC8 respC8 1) "gloss" := by
  decide

/-- C8 (amended): after the **lemma stage's** merge (response `r1` into
the pre-lemma segment `s`) followed by the **gloss stage's** merge
(response `r2` into that intermediate result), tokens sharing one
`mwe_id` carry identical `lemma` and `gloss` values **provided** each
stage's model response complies with the prompt instruction: neither
response (effectively) rewrites `mwe_id`, the base tokens are not yet
lemmatized/glossed before the lemma stage, and each response assigns
equal lemma/gloss values to positions whose base tokens share an
`mwe_id`.  In particular the gloss-stage merge — whose base tokens
already carry the lemma stage's lemmas — preserves the lemma consistency
the lemma stage established while adding consistent glosses.  The code
instructs the model to behave this way but does not enforce it (see
`C8_counterexample`). -/
theorem C8_amended_mwe_consistency (s r1 r2 : Segment)
    (hmwe1 : ∀ i, lastNonNull ((respTok r1 i).annotations.getD []) "mwe_id" = none)
    (hmwe2 : ∀ i, lastNonNull ((respTok r2 i).annotations.getD []) "mwe_id" = none)
    (hbase : ∀ i, annVal (baseTok s i) "lemma" = none ∧
      annVal (baseTok s i) "gloss" = none)
    (hcons1 : ∀ i j v, v ≠ AVal.null →
      annVal (baseTok s i) "mwe_id" = some v →
      annVal (baseTok s j) "mwe_id" = some v →
      lastNonNull ((respTok r1 i).annotations.getD []) "lemma" =
        lastNonNull ((respTok r1 j).annotations.getD []) "lemma" ∧
      lastNonNull ((respTok r1 i).annotations.getD []) "gloss" =
        lastNonNull ((respTok r1 j).annotations.getD []) "gloss")
    (hcons2 : ∀ i j v, v ≠ AVal.null →
      annVal (baseTok s i) "mwe_id" = some v →
      annVal (baseTok s j) "mwe_id" = some v →
      lastNonNull ((respTok r2 i).annotations.getD []) "lemma" =
        lastNonNull ((respTok r2 j).annotations.getD []) "lemma" ∧
      lastNonNull ((respTok r2 i).annotations.getD []) "gloss" =
        lastNonNull ((respTok r2 j).annotations.getD []) "gloss") :
    ∀ i j v, v ≠ AVal.null →
      annVal (mergedTok (merge_segment s r1) r2 i) "mwe_id" = some v →
      annVal (mergedTok (merge_segment s r1) r2 j) "mwe_id" = some v →
      annVal (mergedTok (merge_segment s r1) r2 i) "lemma" =
        annVal (mergedTok (merge_segment s r1) r2 j) "lemma" ∧
      annVal (mergedTok (merge_segment s r1) r2 i) "gloss" =
        annVal (mergedTok (merge_segment s r1) r2 j) "gloss" := by
  intro i j v hv hmi hmj
  rw [mergedTok_annVal, hmwe2 i] at hmi
  rw [mergedTok_annVal, hmwe2 j] at hmj
  have hmi1 : annVal (mergedTok s r1 i) "mwe_id" = some v := hmi
  have hmj1 : annVal (mergedTok s r1 j) "mwe_id" = some v := hmj
  rw [mergedTok_annVal, hmwe1 i] at hmi1
  rw [mergedTok_annVal, hmwe1 j] at hmj1
  have hmi' : annVal (baseTok s i) "mwe_id" = some v := hmi1
  have hmj' : annVal (baseTok s j) "mwe_id" = some v := hmj1
  obtain ⟨hl1, hg1⟩ := hcons1 i j v hv hmi' hmj'
  obtain ⟨hl2, hg2⟩ := hcons2 i j v hv hmi' hmj'
  constructor
  · rw [mergedTok_annVal, mergedTok_annVal, hl2]
    cases hc2 : lastNonNull ((respTok r2 j).annotations.getD []) "lemma" with
    | some w => simp
    | none =>
      show annVal (mergedTok s r1 i) "lemma" = annVal (mergedTok s r1 j) "lemma"
      rw [mergedTok_annVal, mergedTok_annVal, hl1]
      cases hc1 : lastNonNull ((respTok r1 j).annotations.getD []) "lemma" with
      | some w => simp
      | none => simp [(hbase i).1, (hbase j).1]
  · rw [mergedTok_annVal, mergedTok_annVal, hg2]
    cases hc2 : lastNonNull ((respTok r2 j).annotations.getD []) "gloss" with
    | some w => simp
    | none =>
      show annVal (mergedTok s r1 i) "gloss" = annVal (mergedTok s r1 j) "gloss"
      rw [mergedTok_annVal, mergedTok_annVal, hg1]
      cases hc1 : lastNonNull ((respTok r1 j).annotations.getD []) "gloss" with
      | some w => simp
      | none => simp [(hbase i).2, (hbase j).2]

/-- Compliant lemma-stage response used by the witness of
`C8_amended_mwe_consistency`: both MWE member tokens get the same
lemma. -/
def respC8lemma : Segment :=
  { tokens := some
      [{ annotations := some [("lemma", AVal.s "put up")] },
       { annotations := some [("lemma", AVal.s "put up")] }] }

/-- Compliant gloss-stage response: both MWE member tokens get the same
gloss. -/
def respC8gloss : Segment :=
  { tokens := some
      [{ annotations := some [("gloss", AVal.s "tolerate")] },
       { annotations := some [("gloss", AVal.s "tolerate")] }] }

theorem C8_amended_mwe_consistency_witness :
    (∀ i, lastNonNull ((respTok respC8lemma i).annotations.getD []) "mwe_id" = none) ∧
    (∀ i, lastNonNull ((respTok respC8gloss i).annotations.getD []) "mwe_id" = none) ∧
    (∀ i, annVal (baseTok segC8 i) "lemma" = none ∧
      annVal (baseTok segC8 i) "gloss" = none) ∧
    (∀ i j v, v ≠ AVal.null →
      annVal (baseTok segC8 i) "mwe_id" = some v →
      annVal (baseTok segC8 j) "mwe_id" = some v →
      lastNonNull ((respTok respC8lemma i).annotations.getD []) "lemma" =
        lastNonNull ((respTok respC8lemma j).annotations.getD []) "lemma" ∧
      lastNonNull ((respTok respC8lemma i).annotations.getD []) "gloss" =
        lastNonNull ((respTok respC8lemma j).annotations.getD []) "gloss") ∧
    (∀ i j v, v ≠ AVal.null →
      annVal (baseTok segC8 i) "mwe_id" = some v →
      annVal (baseTok segC8 j) "mwe_id" = some v →
      lastNonNull ((respTok respC8gloss i).annotations.getD []) "lemma" =
        lastNonNull ((respTok respC8gloss j).annotations.getD []) "lemma" ∧
      lastNonNull ((respTok respC8gloss i).annotations.getD []) "gloss" =
        lastNonNull ((respTok respC8gloss j).annotations.getD []) "gloss") ∧
    (∀ i j v, v ≠ AVal.null →
      annVal (mergedTok (merge_segment segC8 respC8lemma) respC8gloss i) "mwe_id" = some v →
      annVal (mergedTok (merge_segment segC8 respC8lemma) respC8gloss j) "mwe_id" = some v →
      annVal (mergedTok (merge_segment segC8 respC8lemma) respC8gloss i) "lemma" =
        annVal (mergedTok (merge_segment segC8 respC8lemma) respC8gloss j) "lemma" ∧
      annVal (mergedTok (merge_segment segC8 respC8lemma) respC8gloss i) "gloss" =
        annVal (mergedTok (merge_segment segC8 respC8lemma) respC8gloss j) "gloss") := by
  have h1 : ∀ i, lastNonNull ((respTok respC8lemma i).annotations.getD []) "mwe_id" = none := by
    intro i
    match i with
    | 0 => decide
    | 1 => decide
    | n + 2 => rfl
  have h2 : ∀ i, lastNonNull ((respTok respC8gloss i).annotations.getD []) "mwe_id" = none := by
    intro i
    match i with
    | 0 => decide
    | 1 => decide
    | n + 2 => rfl
  have h3 : ∀ i, annVal (baseTok segC8 i) "lemma" = none ∧
      annVal (baseTok segC8 i) "gloss" = none := by
    intro i
    match i with
    | 0 => exact ⟨by decide, by decide⟩
    | 1 => exact ⟨by decide, by decide⟩
    | n + 2 => exact ⟨rfl, rfl⟩
  have h4 : ∀ i j v, v ≠ AVal.null →
      annVal (baseTok segC8 i) "mwe_id" = some v →
      annVal (baseTok segC8 j) "mwe_id" = some v →
      lastNonNull ((respTok respC8lemma i).annotations.getD []) "lemma" =
        lastNonNull ((respTok respC8lemma j).annotations.getD []) "lemma" ∧
      lastNonNull ((respTok respC8lemma i).annotations.getD []) "gloss" =
        lastNonNull ((respTok respC8lemma j).annotations.getD []) "gloss" := by
    intro i j v hv hi hj
    match i, j with
    | 0, 0 => exact ⟨rfl, rfl⟩
    | 0, 1 => exact ⟨by decide, by decide⟩
    | 1, 0 => exact ⟨by decide, by decide⟩
    | 1, 1 => exact ⟨rfl, rfl⟩
    | n + 2, _ => exact absurd hi (by intro hcon; exact Option.noConfusion hcon)
    | 0, n + 2 => exact absurd hj (by intro hcon; exact Option.noConfusion hcon)
    | 1, n + 2 => exact absurd hj (by intro hcon; exact Option.noConfusion hcon)
  have h5 : ∀ i j v, v ≠ AVal.null →
      annVal (baseTok segC8 i) "mwe_id" = some v →
      annVal (baseTok segC8 j) "mwe_id" = some v →
      lastNonNull ((respTok respC8gloss i).annotations.getD []) "lemma" =
        lastNonNull ((respTok respC8gloss j).annotations.getD []) "lemma" ∧
      lastNonNull ((respTok respC8gloss i).annotations.getD []) "gloss" =
        lastNonNull ((respTok respC8gloss j).annotations.getD []) "gloss" := by
    intro i j v hv hi hj
    match i, j with
    | 0, 0 => exact ⟨rfl, rfl⟩
    | 0, 1 => exact ⟨by decide, by decide⟩
    | 1, 0 => exact ⟨by decide, by decide⟩
    | 1, 1 => exact ⟨rfl, rfl⟩
    | n + 2, _ => exact absurd hi (by intro hcon; exact Option.noConfusion hcon)
    | 0, n + 2 => exact absurd hj (by intro hcon; exact Option.noConfusion hcon)
    | 1, n + 2 => exact absurd hj (by intro hcon; exact Option.noConfusion hcon)
  exact ⟨h1, h2, h3, h4, h5,
    C8_amended_mwe_consistency segC8 respC8lemma respC8gloss h1 h2 h3 h4 h5⟩

/-! ## `OpenAIClient.chat_json` retries (ai_api.py lines 93-193, claim C3)

The retry loop is modelled by the sequence of per-attempt outcomes of the
underlying request: attempt `i` either yields a JSON payload, raises a
transient provider error (`RateLimitError`, `APIError`,
`httpx.TimeoutException` — or their name-detected fakes, handled by the
same retry logic), yields a non-JSON payload (`ValueError`, not retried),
or raises some other exception (re-raised).  `attempt` starts at 0 and is
incremented at the top of the `while True` loop, `backoff` starts at 1.0
and is doubled after each sleep; on a transient error with
`attempt >= max_retries` the error is re-raised. -/

inductive CallOutcome where
  | success
  | transient (e : String)
  | nonJson
  | fatal (e : String)
  deriving DecidableEq, Repr

inductive ChatResult where
  | parsed
  | raisedTransient (e : String)
  | valueErrorNonJson
  | raisedFatal (e : String)
  | outOfOutcomes
  deriving DecidableEq, Repr

/-- Result, the backoff values slept (in order), and the number of
attempts performed. -/
structure ChatRun where
  result : ChatResult
  sleeps : List Nat
  attempts : Nat
  deriving DecidableEq, Repr

def chat_json_go (max_retries attempt backoff : Nat) :
    List CallOutcome → ChatRun
  | [] => { result := ChatResult.outOfOutcomes, sleeps := [], attempts := 0 }
  | o :: rest =>
    match o with
    | CallOutcome.success =>
      { result := ChatResult.parsed, sleeps := [], attempts := 1 }
    | CallOutcome.nonJson =>
      { result := ChatResult.valueErrorNonJson, sleeps := [], attempts := 1 }
    | CallOutcome.fatal e =>
      { result := ChatResult.raisedFatal e, sleeps := [], attempts := 1 }
    | CallOutcome.transient e =>
      if max_retries ≤ attempt then
        { result := ChatResult.raisedTransient e, sleeps := [], attempts := 1 }
      else
        let rest_run := chat_json_go max_retries (attempt + 1) (backoff * 2) rest
        { result := rest_run.result
          sleeps := backoff :: rest_run.sleeps
          attempts := rest_run.attempts + 1 }

/-- `chat_json` enters the loop with `attempt = 1` (after `attempt += 1`)
and `backoff = 1.0`. -/
def chat_json (max_retries : Nat) (outcomes : List CallOutcome) : ChatRun :=
  chat_json_go max_retries 1 1 outcomes

theorem chat_json_go_transient (max_retries : Nat) (tail : List CallOutcome) :
    ∀ (n : Nat) (errs : Nat → String) (attempt backoff : Nat),
      attempt + n = max_retries →
      chat_json_go max_retries attempt backoff
          ((List.range (n + 1)).map (fun a => CallOutcome.transient (errs a)) ++ tail) =
        { result := ChatResult.raisedTransient (errs n)
          sleeps := (List.range n).map (fun a => backoff * 2 ^ a)
          attempts := n + 1 } := by
  intro n
  induction n with
  | zero =>
    intro errs attempt backoff hmax
    simp only [Nat.add_zero] at hmax
    subst hmax
    simp [chat_json_go]
  | succ n ih =>
    intro errs attempt backoff hmax
    have hlt : ¬ (max_retries ≤ attempt) := by omega
    rw [List.range_succ_eq_map, List.map_cons, List.cons_append]
    rw [show chat_json_go max_retries attempt backoff
        (CallOutcome.transient (errs 0) ::
          ((List.map Nat.succ (List.range (n + 1))).map
            (fun a => CallOutcome.transient (errs a)) ++ tail)) =
      (if max_retries ≤ attempt then
        { result := ChatResult.raisedTransient (errs 0), sleeps := [], attempts := 1 }
      else
        let rest_run := chat_json_go max_retries (attempt + 1) (backoff * 2)
          ((List.map Nat.succ (List.range (n + 1))).map
            (fun a => CallOutcome.transient (errs a)) ++ tail)
        { result := rest_run.result
          sleeps := backoff :: rest_run.sleeps
          attempts := rest_run.attempts + 1 }) from rfl]
    rw [if_neg hlt]
    rw [List.map_map]
    have harg : (List.range (n + 1)).map
        ((fun a => CallOutcome.transient (errs a)) ∘ Nat.succ) =
        (List.range (n + 1)).map (fun a => CallOutcome.transient (errs (a + 1))) := by
      apply List.map_congr_left
      intro a _
      rfl
    rw [harg]
    rw [ih (fun a => errs (a + 1)) (attempt + 1) (backoff * 2) (by omega)]
    simp only
    congr 1
    rw [List.range_succ_eq_map, List.map_cons, List.map_map]
    congr 1
    · simp
    · apply List.map_congr_left
      intro a _
      simp [Nat.pow_succ]
      ring

theorem chat_json_go_success (max_retries : Nat) (tail : List CallOutcome) :
    ∀ (k : Nat) (errs : Nat → String) (attempt backoff : Nat),
      attempt + k ≤ max_retries →
      chat_json_go max_retries attempt backoff
          ((List.range k).map (fun a => CallOutcome.transient (errs a)) ++
            CallOutcome.success :: tail) =
        { result := ChatResult.parsed
          sleeps := (List.range k).map (fun a => backoff * 2 ^ a)
          attempts := k + 1 } := by
  intro k
  induction k with
  | zero =>
    intro errs attempt backoff hmax
    simp [chat_json_go]
  | succ k ih =>
    intro errs attempt backoff hmax
    have hlt : ¬ (max_retries ≤ attempt) := by omega
    rw [List.range_succ_eq_map, List.map_cons, List.cons_append]
    rw [show chat_json_go max_retries attempt backoff
        (CallOutcome.transient (errs 0) ::
          ((List.map Nat.succ (List.range k)).map
            (fun a => CallOutcome.transient (errs a)) ++
              CallOutcome.success :: tail)) =
      (if max_retries ≤ attempt then
        { result := ChatResult.raisedTransient (errs 0), sleeps := [], attempts := 1 }
      else
        let rest_run := chat_json_go max_retries (attempt + 1) (backoff * 2)
          ((List.map Nat.succ (List.range k)).map
            (fun a => CallOutcome.transient (errs a)) ++
              CallOutcome.success :: tail)
        { result := rest_run.result
          sleeps := backoff :: rest_run.sleeps
          attempts := rest_run.attempts + 1 }) from rfl]
    rw [if_neg hlt, List.map_map]
    have harg : (List.range k).map
        ((fun a => CallOutcome.transient (errs a)) ∘ Nat.succ) =
        (List.range k).map (fun a => CallOutcome.transient (errs (a + 1))) := by
      apply List.map_congr_left
      intro a _
      rfl
    rw [harg, ih (fun a => errs (a + 1)) (attempt + 1) (backoff * 2) (by omega)]
    simp only
    congr 1
    rw [List.map_cons, List.map_map]
    congr 1
    · simp
    · apply List.map_congr_left
      intro a _
      simp [Nat.pow_succ]
      ring

/-- C3: on transient provider errors `chat_json` retries until at most
`max_retries` total attempts have been made, sleeping `backoff` seconds
before each retry with `backoff` starting at 1 and doubling after every
retry; exhausting the attempts re-raises the last transient error, and a
success on attempt `k + 1 ≤ max_retries` stops the loop after exactly
`k + 1` attempts. -/
theorem C3_retry_backoff (max_retries : Nat) (errs : Nat → String) (k : Nat)
    (h : 1 ≤ max_retries) (hk : k + 1 ≤ max_retries)
    (tail tail' : List CallOutcome) :
    chat_json max_retries
        ((List.range max_retries).map (fun a => CallOutcome.transient (errs a)) ++ tail) =
      { result := ChatResult.raisedTransient (errs (max_retries - 1))
        sleeps := (List.range (max_retries - 1)).map (fun a => 2 ^ a)
        attempts := max_retries } ∧
    chat_json max_retries
        ((List.range k).map (fun a => CallOutcome.transient (errs a)) ++
          CallOutcome.success :: tail') =
      { result := ChatResult.parsed
        sleeps := (List.range k).map (fun a => 2 ^ a)
        attempts := k + 1 } := by
  constructor
  · obtain ⟨m, hm⟩ : ∃ m, max_retries = m + 1 := ⟨max_retries - 1, by omega⟩
    subst hm
    simp only [Nat.add_sub_cancel]
    rw [chat_json, chat_json_go_transient (m + 1) tail m errs 1 1 (by omega)]
    congr 1
    apply List.map_congr_left
    intro a _
    simp
  · rw [chat_json, chat_json_go_success max_retries tail' k errs 1 1 (by omega)]
    congr 1
    apply List.map_congr_left
    intro a _
    simp

theorem C3_retry_backoff_witness :
    1 ≤ 3 ∧ 1 + 1 ≤ 3 ∧
    (chat_json 3 ((List.range 3).map (fun a => CallOutcome.transient (toString a)) ++ []) =
      { result := ChatResult.raisedTransient (toString (3 - 1))
        sleeps := (List.range (3 - 1)).map (fun a => 2 ^ a)
        attempts := 3 } ∧
    chat_json 3 ((List.range 1).map (fun a => CallOutcome.transient (toString a)) ++
          CallOutcome.success :: []) =
      { result := ChatResult.parsed
        sleeps := (List.range 1).map (fun a => 2 ^ a)
        attempts := 1 + 1 }) :=
  ⟨by decide, by decide,
    C3_retry_backoff 3 (fun a => toString a) 1 (by decide) (by decide) [] []⟩

/-! ## `run_full_pipeline` validation (full_pipeline.py lines 63-201, claim C4)

The orchestration is modelled by its validation logic plus an event trace
of external model calls: each model-backed stage run appends one
`modelCall` marker (text generation, the two segmentation phases,
translation, mwe, lemma and gloss all call `chat_json`; pinyin, audio and
compile_html make no model call).  Stage outputs are abstracted to the
presence of a document (`current`) and of a raw text string (`rawText`):
the validation reads nothing else from them. -/

def pipelineOrder : List String :=
  ["text_gen", "segmentation_phase_1", "segmentation_phase_2", "translation",
   "mwe", "lemma", "gloss", "pinyin", "audio", "compile_html"]

structure PipelineSpec where
  text : Option String := none
  text_obj : Option TextDoc := none
  description : Option String := none
  language : String := "en"
  start_stage : String := "segmentation_phase_1"
  end_stage : String := "compile_html"

inductive PEvent where
  | modelCall (stage : String)
  deriving DecidableEq, Repr

inductive PErr where
  | unknownStartStage
  | unknownEndStage
  | stageOrder
  | missingInput
  | textObjRequired
  | rawTextRequired
  | annotatedRequired (stage : String)
  deriving DecidableEq, Repr

/-- Python truthiness of `spec.description` (`if spec.description:`). -/
def truthyStr (o : Option String) : Bool :=
  match o with
  | some d => !d.isEmpty
  | none => false

/-- The `for stage in PIPELINE_ORDER[start_index : end_index + 1]` loop. -/
def run_stages (language : String) :
    List String → Bool → Option String → List PEvent → List PEvent × Option PErr
  | [], _, _, ev => (ev, none)
  | st :: rest, current, rawText, ev =>
    if st = "text_gen" then
      if current then run_stages language rest current rawText ev
      else run_stages language rest current (some "<generated surface>")
        (ev ++ [PEvent.modelCall "text_gen"])
    else if st = "segmentation_phase_1" then
      match rawText with
      | none => (ev, some PErr.rawTextRequired)
      | some _ =>
        run_stages language rest true rawText
          (ev ++ [PEvent.modelCall "segmentation_phase_1"])
    else if !current then (ev, some (PErr.annotatedRequired st))
    else if st = "pinyin" || st = "audio" || st = "compile_html" then
      run_stages language rest current rawText ev
    else
      run_stages language rest current rawText (ev ++ [PEvent.modelCall st])

def run_full_pipeline (spec : PipelineSpec) : List PEvent × Option PErr :=
  if spec.start_stage ∉ pipelineOrder then ([], some PErr.unknownStartStage)
  else if spec.end_stage ∉ pipelineOrder then ([], some PErr.unknownEndStage)
  else
    let start_index := pipelineOrder.indexOf spec.start_stage
    let end_index := pipelineOrder.indexOf spec.end_stage
    if end_index < start_index then ([], some PErr.stageOrder)
    else
      let current := spec.text_obj.isSome
      let stages := (pipelineOrder.drop start_index).take (end_index + 1 - start_index)
      if spec.text.isNone && spec.text_obj.isNone then
        if truthyStr spec.description then
          -- `generate_text` performs a chat_json call before line 114's check
          let ev0 := [PEvent.modelCall "text_gen"]
          if !current && pipelineOrder.indexOf "segmentation_phase_1" < start_index then
            (ev0, some PErr.textObjRequired)
          else run_stages spec.language stages current (some "<generated surface>") ev0
        else ([], some PErr.missingInput)
      else
        if !current && pipelineOrder.indexOf "segmentation_phase_1" < start_index then
          ([], some PErr.textObjRequired)
        else run_stages spec.language stages current spec.text []

/-- Spec exhibiting the C4 counterexample: no text and no document, but a
generation description, starting at a late stage. -/
def specC4 : PipelineSpec :=
  { description := some "a story about a cat", start_stage := "gloss",
    end_stage := "gloss" }

/-- C4, counterexample: with `text = None`, `text_obj = None` and a
description supplied, `run_full_pipeline` performs the text-generation
model call (line 105) before raising the stage-input error of line 115,
so the error is not raised before every external model call. -/
theorem C4_counterexample :
    run_full_pipeline specC4 =
      ([PEvent.modelCall "text_gen"], some PErr.textObjRequired) ∧
    ([PEvent.modelCall "text_gen"] : List PEvent) ≠ [] := by
  constructor
  · decide
  · decide

/-- C4 (amended): `run_full_pipeline` fails with a value error when
`start_stage` or `end_stage` is not in the stage order or `start_stage`
comes after `end_stage`, always with no model call made; it fails with a
stage-input error when the input does not match the chosen `start_stage`
(no document object when starting after `segmentation_phase_1`, no raw
text when running `segmentation_phase_1`), and these too are raised
before any model call — **except** that when `text` and `text_obj` are
both absent and a non-empty `description` is supplied, one
text-generation model call is performed before the stage-input error
(see `C4_counterexample`). -/
theorem C4_amended_validation (spec : PipelineSpec) :
    (spec.start_stage ∉ pipelineOrder →
      run_full_pipeline spec = ([], some PErr.unknownStartStage)) ∧
    (spec.start_stage ∈ pipelineOrder → spec.end_stage ∉ pipelineOrder →
      run_full_pipeline spec = ([], some PErr.unknownEndStage)) ∧
    (spec.start_stage ∈ pipelineOrder → spec.end_stage ∈ pipelineOrder →
      pipelineOrder.indexOf spec.end_stage < pipelineOrder.indexOf spec.start_stage →
      run_full_pipeline spec = ([], some PErr.stageOrder)) ∧
    (spec.start_stage ∈ pipelineOrder → spec.end_stage ∈ pipelineOrder →
      pipelineOrder.indexOf spec.start_stage ≤ pipelineOrder.indexOf spec.end_stage →
      spec.text_obj = none → 1 < pipelineOrder.indexOf spec.start_stage →
      spec.text = none → truthyStr spec.description = true →
      run_full_pipeline spec =
        ([PEvent.modelCall "text_gen"], some PErr.textObjRequired)) ∧
    (spec.start_stage ∈ pipelineOrder → spec.end_stage ∈ pipelineOrder →
      pipelineOrder.indexOf spec.start_stage ≤ pipelineOrder.indexOf spec.end_stage →
      spec.text_obj = none → 1 < pipelineOrder.indexOf spec.start_stage →
      spec.text = none → truthyStr spec.description = false →
      run_full_pipeline spec = ([], some PErr.missingInput)) ∧
    (spec.start_stage ∈ pipelineOrder → spec.end_stage ∈ pipelineOrder →
      pipelineOrder.indexOf spec.start_stage ≤ pipelineOrder.indexOf spec.end_stage →
      spec.text_obj = none → 1 < pipelineOrder.indexOf spec.start_stage →
      ∀ t, spec.text = some t →
      run_full_pipeline spec = ([], some PErr.textObjRequired)) ∧
    (spec.start_stage = "segmentation_phase_1" → spec.end_stage ∈ pipelineOrder →
      pipelineOrder.indexOf spec.start_stage ≤ pipelineOrder.indexOf spec.end_stage →
      spec.text = none → ∀ obj, spec.text_obj = some obj →
      run_full_pipeline spec = ([], some PErr.rawTextRequired)) := by
  refine ⟨?_, ?_, ?_, ?_, ?_, ?_, ?_⟩
  · intro h1
    unfold run_full_pipeline
    rw [if_pos h1]
  · intro hs he
    unfold run_full_pipeline
    rw [if_neg (not_not_intro hs), if_pos he]
  · intro hs he hlt
    unfold run_full_pipeline
    rw [if_neg (not_not_intro hs), if_neg (not_not_intro he), if_pos hlt]
  · intro hs he hle hobj hgt htext hdesc
    unfold run_full_pipeline
    rw [if_neg (not_not_intro hs), if_neg (not_not_intro he),
      if_neg (Nat.not_lt.mpr hle)]
    simp only [htext, hobj, Option.isNone_none, Bool.and_self, if_true, hdesc,
      Option.isSome_none, Bool.not_false,
      show pipelineOrder.indexOf "segmentation_phase_1" = 1 from rfl]
    rw [if_pos (by simp [hgt])]
  · intro hs he hle hobj hgt htext hdesc
    unfold run_full_pipeline
    rw [if_neg (not_not_intro hs), if_neg (not_not_intro he),
      if_neg (Nat.not_lt.mpr hle)]
    simp [htext, hobj, hdesc]
  · intro hs he hle hobj hgt t htext
    unfold run_full_pipeline
    rw [if_neg (not_not_intro hs), if_neg (not_not_intro he),
      if_neg (Nat.not_lt.mpr hle)]
    simp [htext, hobj, hgt,
      show pipelineOrder.indexOf "segmentation_phase_1" = 1 from rfl]
  · intro hs he hle htext obj hobj
    have hsmem : spec.start_stage ∈ pipelineOrder := by rw [hs]; decide
    unfold run_full_pipeline
    rw [if_neg (not_not_intro hsmem), if_neg (not_not_intro he),
      if_neg (Nat.not_lt.mpr hle)]
    rw [hs] at hle ⊢
    simp only [show pipelineOrder.indexOf "segmentation_phase_1" = 1 from rfl] at hle ⊢
    obtain ⟨m, hm⟩ : ∃ m, pipelineOrder.indexOf spec.end_stage + 1 - 1 = m + 1 :=
      ⟨pipelineOrder.indexOf spec.end_stage - 1, by omega⟩
    simp only [htext, hobj, Option.isNone_none, Option.isNone_some,
      Bool.and_false, if_false, Option.isSome_some, Bool.not_true,
      Bool.false_and]
    rw [show pipelineOrder.drop 1 =
      ["segmentation_phase_1", "segmentation_phase_2", "translation", "mwe",
       "lemma", "gloss", "pinyin", "audio", "compile_html"] from rfl]
    rw [hm, List.take_succ_cons]
    rw [show run_stages spec.language
        ("segmentation_phase_1" ::
          List.take m ["segmentation_phase_2", "translation", "mwe", "lemma",
            "gloss", "pinyin", "audio", "compile_html"]) true none [] =
      ([], some PErr.rawTextRequired) from rfl]
    simp

theorem C4_amended_validation_witness :
    specC4.start_stage ∈ pipelineOrder ∧
    specC4.end_stage ∈ pipelineOrder ∧
    pipelineOrder.indexOf specC4.start_stage ≤
      pipelineOrder.indexOf specC4.end_stage ∧
    specC4.text_obj = none ∧
    1 < pipelineOrder.indexOf specC4.start_stage ∧
    specC4.text = none ∧
    truthyStr specC4.description = true ∧
    run_full_pipeline specC4 =
      ([PEvent.modelCall "text_gen"], some PErr.textObjRequired) :=
  ⟨by decide, by decide, by decide, rfl, by decide, rfl, by decide,
    (C4_amended_validation specC4).2.2.2.1 (by decide) (by decide) (by decide) rfl
      (by decide) rfl (by decide)⟩

/-! ## Audio synthesis and caching (audio.py, claims C5, C6, C7)

A WAV file is modelled by its header parameters and frame list; the
`nframes` header field of files written by the `wave` module equals the
number of frames written.  `_validate_wav` is always called with the
default `min_duration_s = 0.1`, so the duration check `nframes/framerate
< 0.1` is modelled exactly as `10 * nframes < framerate`.  SHA-1 digests
are modelled by an injective function of the digested string.  The engine
selected at lines 243-261 (environment dependent) is abstracted as a
function `P` from normalized text to `some wav` (synthesis wrote this
file) or `none` (synthesis raised); the deterministic offline fallback
`SimpleTTSEngine` is modelled concretely, with its sine sample values
(irrelevant to validation and concatenation) replaced by zeros. -/

/-- Python `str.lower()`, modelled characterwise (ASCII case folding, as
`Char.toLower`). -/
def strToLower (s : String) : String := String.mk (s.data.map Char.toLower)

/-- Python `str.strip()`: drop whitespace from both ends. -/
def strTrim (s : String) : String :=
  String.mk
    (((s.data.dropWhile Char.isWhitespace).reverse.dropWhile
        Char.isWhitespace).reverse)

/-- Python truthiness of a string (`not s`). -/
def strIsEmpty (s : String) : Bool := s.data.isEmpty

def strAll (s : String) (p : Char → Bool) : Bool := s.data.all p

def strAny (s : String) (p : Char → Bool) : Bool := s.data.any p

structure Wav where
  nchannels : Int
  sampwidth : Nat
  framerate : Int
  nframes : Nat
  frames : List Int
  deriving DecidableEq, Repr

/-- `_validate_wav` succeeds: the file exists, has a positive frame count
and frame rate, and is at least 0.1 s long. -/
def validWav (w : Option Wav) : Bool :=
  match w with
  | none => false
  | some w =>
    decide (0 < w.nframes) && decide (0 < w.framerate) &&
      decide ((w.framerate : Int) ≤ 10 * (w.nframes : Int))

/-- `int(22050 * min(1.5, max(0.25, len(text) * 0.02)))`, computed in
hundredths of a second. -/
def simple_tts_nframes (text : String) : Nat :=
  22050 * (min 150 (max 25 (2 * text.length))) / 100

/-- The WAV produced by `SimpleTTSEngine.synthesize_to_path`. -/
def simple_tts_wav (text : String) : Wav :=
  { nchannels := 1, sampwidth := 2, framerate := 22050,
    nframes := simple_tts_nframes text,
    frames := List.replicate (simple_tts_nframes text) 0 }

theorem simple_tts_wav_valid (text : String) :
    validWav (some (simple_tts_wav text)) = true := by
  have h25 : 25 ≤ min 150 (max 25 (2 * text.length)) :=
    le_min (by omega) (Nat.le_max_left _ _)
  have hn : 2205 ≤ simple_tts_nframes text := by
    unfold simple_tts_nframes
    rw [Nat.le_div_iff_mul_le (by omega)]
    calc 2205 * 100 ≤ 22050 * 25 := by omega
    _ ≤ 22050 * (min 150 (max 25 (2 * text.length))) :=
      Nat.mul_le_mul_left _ h25
  have hlen : (simple_tts_wav text).nframes = simple_tts_nframes text := rfl
  show (decide (0 < (simple_tts_wav text).nframes) &&
    decide (0 < (simple_tts_wav text).framerate) &&
    decide (((simple_tts_wav text).framerate : Int) ≤
      10 * ((simple_tts_wav text).nframes : Int))) = true
  rw [hlen, show (simple_tts_wav text).framerate = 22050 from rfl]
  have h1 : 0 < simple_tts_nframes text := by omega
  have h2 : ((22050 : Int) : Int) ≤ 10 * (simple_tts_nframes text : Int) := by
    omega
  simp [h1, h2]

/-- Generic Python-dict lookup for string-keyed dicts. -/
def lookupStr {α : Type} (m : List (String × α)) (k : String) : Option α :=
  match m with
  | [] => none
  | (k', v) :: rest => if k' = k then some v else lookupStr rest k

/-- Generic Python-dict assignment for string-keyed dicts. -/
def setStr {α : Type} (m : List (String × α)) (k : String) (v : α) :
    List (String × α) :=
  match m with
  | [] => [(k, v)]
  | (k', v') :: rest => if k' = k then (k, v) :: rest else (k', v') :: setStr rest k v

theorem lookupStr_setStr {α : Type} (m : List (String × α)) (k k' : String) (v : α) :
    lookupStr (setStr m k v) k' = if k = k' then some v else lookupStr m k' := by
  induction m with
  | nil => simp [setStr, lookupStr]
  | cons hd tl ih =>
    obtain ⟨k₀, v₀⟩ := hd
    by_cases h₀ : k₀ = k
    · subst h₀
      by_cases h₁ : k₀ = k'
      · subst h₁; simp [setStr, lookupStr]
      · simp [setStr, lookupStr, h₁]
    · by_cases h₁ : k₀ = k'
      · subst h₁
        have hkk' : ¬ k = k₀ := fun h => h₀ h.symm
        simp [setStr, lookupStr, h₀, hkk']
      · simp [setStr, lookupStr, h₀, h₁, ih]

inductive EngineKind where
  | primary
  | offlineStub
  deriving DecidableEq, Repr

/-- Mutable state threaded through one `annotate_audio` run: whether the
originally selected engine is still in use (the `nonlocal engine`
variable), the in-run `cache` dict (key to path), the on-disk cache
directory (path to file contents), the page-concat cache, and the trace
of `synthesize_to_path` invocations with their cache key. -/
structure AudioState where
  curPrimary : Bool
  cache : List (String × String)
  disk : List (String × Wav)
  concatCache : List (String × String)
  calls : List (EngineKind × String)

/-- `f"{level}:{spec.language}:{spec.voice or 'default'}:{normalized.lower()}"` -/
def audio_key (level language : String) (voice : Option String)
    (normalized : String) : String :=
  level ++ ":" ++ language ++ ":" ++ voice.getD "default" ++ ":" ++ strToLower normalized

/-- `hashlib.sha1(key).hexdigest() + ".wav"`, modelled injectively. -/
def fileNameOf (key : String) : String := "sha1-" ++ key ++ ".wav"

/-- The offline-stub attempt of the `except` branch: replace the engine by
`SimpleTTSEngine()`, synthesize, validate; a validation failure here
propagates out of `ensure_audio`. -/
def stub_attempt (st : AudioState) (key output_path normalized : String) :
    Except String (Option String × AudioState) :=
  if validWav (some (simple_tts_wav normalized)) then
    Except.ok (some output_path,
      { st with curPrimary := false
                calls := st.calls ++ [(EngineKind.offlineStub, key)]
                disk := setStr st.disk output_path (simple_tts_wav normalized)
                cache := setStr st.cache key output_path })
  else Except.error "audio validation failed"

/-- `ensure_audio` (audio.py lines 267-305). -/
def ensure_audio (P : String → Option Wav) (language : String)
    (voice : Option String) (st : AudioState) (text level : String) :
    Except String (Option String × AudioState) :=
  if (strTrim text) = "" then Except.ok (none, st)
  else
    (lookupStr st.cache (audio_key level language voice (strTrim text))).elim
      (if (lookupStr st.disk
          (fileNameOf (audio_key level language voice (strTrim text)))).isSome then
        Except.ok (some (fileNameOf (audio_key level language voice (strTrim text))),
          { st with
            cache := setStr st.cache (audio_key level language voice (strTrim text))
                       (fileNameOf (audio_key level language voice (strTrim text))) })
      else if st.curPrimary then
        (P (strTrim text)).elim
          (stub_attempt
            { st with
              calls := st.calls ++
                         [(EngineKind.primary,
                           audio_key level language voice (strTrim text))] }
            (audio_key level language voice (strTrim text))
            (fileNameOf (audio_key level language voice (strTrim text))) (strTrim text))
          (fun w =>
            if validWav (some w) then
              Except.ok
                (some (fileNameOf (audio_key level language voice (strTrim text))),
                { st with
                  calls := st.calls ++
                             [(EngineKind.primary,
                               audio_key level language voice (strTrim text))]
                  disk := setStr st.disk
                            (fileNameOf (audio_key level language voice (strTrim text))) w
                  cache := setStr st.cache (audio_key level language voice (strTrim text))
                             (fileNameOf (audio_key level language voice (strTrim text))) })
            else
              stub_attempt
                { st with
                  calls := st.calls ++
                             [(EngineKind.primary,
                               audio_key level language voice (strTrim text))]
                  disk := setStr st.disk
                            (fileNameOf (audio_key level language voice (strTrim text))) w }
                (audio_key level language voice (strTrim text))
                (fileNameOf (audio_key level language voice (strTrim text))) (strTrim text))
      else
        -- the current engine is already the offline stub
        if validWav (some (simple_tts_wav (strTrim text))) then
          Except.ok (some (fileNameOf (audio_key level language voice (strTrim text))),
            { st with
              calls := st.calls ++
                         [(EngineKind.offlineStub,
                           audio_key level language voice (strTrim text))]
              disk := setStr st.disk
                        (fileNameOf (audio_key level language voice (strTrim text)))
                        (simple_tts_wav (strTrim text))
              cache := setStr st.cache (audio_key level language voice (strTrim text))
                         (fileNameOf (audio_key level language voice (strTrim text))) })
        else
          stub_attempt
            { st with
              calls := st.calls ++
                         [(EngineKind.offlineStub,
                           audio_key level language voice (strTrim text))]
              disk := setStr st.disk
                        (fileNameOf (audio_key level language voice (strTrim text)))
                        (simple_tts_wav (strTrim text)) }
            (audio_key level language voice (strTrim text))
            (fileNameOf (audio_key level language voice (strTrim text))) (strTrim text))
      (fun path => Except.ok (some path, st))

/-- The value stored by `_audio_annotation`: a metadata dict (path,
surface, engine, voice, language, level); the claims depend only on its
presence and path, so it is modelled as an opaque tagged payload. -/
def audio_annotation_map (path : String) : AVal := AVal.s ("audio:" ++ path)

/-- `token.get("surface", "")` coerced to the string the code treats it
as (annotation surfaces are strings in every produced document). -/
def surfaceStr (s : Option AVal) : String :=
  match s with
  | some (AVal.s v) => v
  | _ => ""

def is_cjk (c : Char) : Bool := decide (0x4E00 ≤ c.toNat) && decide (c.toNat ≤ 0x9FFF)

/-- `_is_word_token` (audio.py lines 399-408).  (`str.isalnum` is
Unicode-aware in Python; `Char.isAlphanum` covers the ASCII range, which
together with the explicit CJK range covers the documents considered
here.) -/
def is_word_token (surface : String) : Bool :=
  if strIsEmpty surface || (!strIsEmpty surface && strAll surface Char.isWhitespace)
    then false
  else strAny surface (fun c => c.isAlphanum || is_cjk c)

/-- `annotations.get("lemma") or surface` (Python truthiness: a null,
missing or empty lemma falls back to the surface). -/
def token_synth_key (annotations : AMap) (surface : String) : String :=
  match alookup annotations "lemma" with
  | some (AVal.s l) => if strIsEmpty l then surface else l
  | _ => surface

/-- Error-propagating sequencing (the Python call either raises, which
propagates, or returns a value). -/
def exBind {α β : Type} (e : Except String α) (f : α → Except String β) :
    Except String β :=
  match e with
  | Except.error msg => Except.error msg
  | Except.ok a => f a

@[simp] theorem exBind_ok {α β : Type} (a : α) (f : α → Except String β) :
    exBind (Except.ok a) f = f a := rfl

/-- Rebuild a token after the audio step: add the `audio` annotation when
a clip was produced, then keep the token dict unchanged when its
annotation dict is empty (audio.py lines 317-328). -/
def token_with_audio (tok : Token) (res : Option String) : Token :=
  let annotations' := match res with
    | some path => aset (tok.annotations.getD []) "audio" (audio_annotation_map path)
    | none => tok.annotations.getD []
  if annotations'.isEmpty then tok else { tok with annotations := some annotations' }

theorem token_with_audio_surface (tok : Token) (res : Option String) :
    (token_with_audio tok res).surface = tok.surface := by
  unfold token_with_audio
  cases res <;> dsimp only <;> split <;> rfl

/-- Per-token body of the token loop (audio.py lines 313-328). -/
def process_token (P : String → Option Wav) (language : String)
    (voice : Option String) (tok : Token) (st : AudioState) :
    Except String (Token × AudioState) :=
  if is_word_token (surfaceStr tok.surface) then
    exBind (ensure_audio P language voice st
        (token_synth_key (tok.annotations.getD []) (surfaceStr tok.surface)) "token")
      (fun rs => Except.ok (token_with_audio tok rs.1, rs.2))
  else
    Except.ok (token_with_audio tok none, st)

def process_tokens (P : String → Option Wav) (language : String)
    (voice : Option String) :
    List Token → AudioState → Except String (List Token × AudioState)
  | [], st => Except.ok ([], st)
  | tok :: rest, st =>
    exBind (process_token P language voice tok st) (fun rs =>
      exBind (process_tokens P language voice rest rs.2) (fun rs2 =>
        Except.ok (rs.1 :: rs2.1, rs2.2)))

/-- Rebuild a segment dict (audio.py lines 330-348). -/
def segment_rebuilt (seg : Segment) (tokens_out : List Token)
    (segAudio : Option String) : Segment :=
  { surface := some (seg.surface.getD (AVal.s ""))
    tokens := some (if tokens_out.isEmpty then seg.tokens.getD [] else tokens_out)
    annotations := some (match segAudio with
      | some path => aset (seg.annotations.getD []) "audio" (audio_annotation_map path)
      | none => seg.annotations.getD [])
    extra := [] }

/-- Per-segment body (audio.py lines 311-348). -/
def process_segment (P : String → Option Wav) (language : String)
    (voice : Option String) (seg : Segment) (st : AudioState) :
    Except String (Segment × Option String × AudioState) :=
  exBind (process_tokens P language voice (seg.tokens.getD []) st) (fun rs =>
    exBind (ensure_audio P language voice rs.2 (surfaceStr seg.surface) "segment")
      (fun rs2 => Except.ok (segment_rebuilt seg rs.1 rs2.1, rs2.1, rs2.2)))

def process_segments (P : String → Option Wav) (language : String)
    (voice : Option String) :
    List Segment → AudioState →
      Except String (List Segment × List String × AudioState)
  | [], st => Except.ok ([], [], st)
  | seg :: rest, st =>
    exBind (process_segment P language voice seg st) (fun rs =>
      exBind (process_segments P language voice rest rs.2.2) (fun rs2 =>
        Except.ok (rs.1 :: rs2.1,
          (match rs.2.1 with
           | some p => p :: rs2.2.1
           | none => rs2.2.1),
          rs2.2.2)))

inductive ConcatResult where
  | noOutput
  | wrote (w : Wav)
  | raisedError
  deriving DecidableEq, Repr

/-- `_concat_wave_files` (audio.py lines 416-450): no inputs — nothing is
written; one input — the file is copied verbatim; several inputs — the
first file's parameters are validated (positive channel count and frame
rate, sample width 1-4 bytes) and all frame lists are appended under
those parameters; an invalid first header raises `ValueError`. -/
def concat_wave_files (inputs : List Wav) : ConcatResult :=
  match inputs with
  | [] => ConcatResult.noOutput
  | [w] => ConcatResult.wrote w
  | first :: rest =>
    if first.nchannels ≤ 0 ∨
        (first.sampwidth ≠ 1 ∧ first.sampwidth ≠ 2 ∧
         first.sampwidth ≠ 3 ∧ first.sampwidth ≠ 4) ∨
        first.framerate ≤ 0 then
      ConcatResult.raisedError
    else
      ConcatResult.wrote
        { nchannels := first.nchannels, sampwidth := first.sampwidth,
          framerate := first.framerate,
          nframes := first.nframes + (rest.map Wav.nframes).sum,
          frames := first.frames ++ (rest.map Wav.frames).flatten }

/-- The page-audio concatenation step (audio.py lines 350-372): its
failures are caught, logged and leave the page without audio. -/
def page_concat_state (st : AudioState) (seg_audio_paths : List String) :
    AudioState :=
  if seg_audio_paths.isEmpty then st
  else
    if (lookupStr st.concatCache
        ("page:" ++ String.intercalate ":" seg_audio_paths)).isSome then st
    else if (lookupStr st.disk
        (fileNameOf ("page:" ++ String.intercalate ":" seg_audio_paths))).isSome then
      { st with
        concatCache := setStr st.concatCache
          ("page:" ++ String.intercalate ":" seg_audio_paths)
          (fileNameOf ("page:" ++ String.intercalate ":" seg_audio_paths)) }
    else
      match concat_wave_files (seg_audio_paths.map (fun p =>
          (lookupStr st.disk p).getD (simple_tts_wav ""))) with
      | ConcatResult.wrote w =>
        { st with
          disk := setStr st.disk
            (fileNameOf ("page:" ++ String.intercalate ":" seg_audio_paths)) w
          concatCache := setStr st.concatCache
            ("page:" ++ String.intercalate ":" seg_audio_paths)
            (fileNameOf ("page:" ++ String.intercalate ":" seg_audio_paths)) }
      | _ => st

/-- Rebuild a page dict (audio.py lines 350-380).  The page gets an
`audio` annotation exactly when the concat cache holds its key after the
concatenation step. -/
def page_rebuilt (page : Page) (segs : List Segment) (st2 : AudioState)
    (seg_audio_paths : List String) : Page :=
  { surface := some (page.surface.getD (AVal.s ""))
    segments := segs
    annotations := some (
      if seg_audio_paths.isEmpty then page.annotations.getD []
      else match lookupStr st2.concatCache
          ("page:" ++ String.intercalate ":" seg_audio_paths) with
        | some path => aset (page.annotations.getD []) "audio" (audio_annotation_map path)
        | none => page.annotations.getD []) }

def process_page (P : String → Option Wav) (language : String)
    (voice : Option String) (page : Page) (st : AudioState) :
    Except String (Page × AudioState) :=
  exBind (process_segments P language voice page.segments st) (fun rs =>
    Except.ok (page_rebuilt page rs.1 (page_concat_state rs.2.2 rs.2.1) rs.2.1,
      page_concat_state rs.2.2 rs.2.1))

def process_pages (P : String → Option Wav) (language : String)
    (voice : Option String) :
    List Page → AudioState → Except String (List Page × AudioState)
  | [], st => Except.ok ([], st)
  | page :: rest, st =>
    exBind (process_page P language voice page st) (fun rs =>
      exBind (process_pages P language voice rest rs.2) (fun rs2 =>
        Except.ok (rs.1 :: rs2.1, rs2.2)))

/-- `annotate_audio` (audio.py lines 230-396) over an abstract selected
engine `P` and an initial on-disk cache `disk0`. -/
def annotate_audio (P : String → Option Wav) (language : String)
    (voice : Option String) (doc : TextDoc) (disk0 : List (String × Wav)) :
    Except String (TextDoc × AudioState) :=
  exBind (process_pages P language voice doc.pages
      { curPrimary := true, cache := [], disk := disk0, concatCache := [],
        calls := [] })
    (fun rs => Except.ok (
      { l2 := some (doc.l2.getD (AVal.s language))
        l1 := some (doc.l1.getD AVal.null)
        title := some (doc.title.getD AVal.null)
        surface := some (doc.surface.getD (AVal.s ""))
        pages := rs.1
        annotations := some (doc.annotations.getD []) }, rs.2))

/-- The engine invocations recorded for cache key `k`, in order. -/
def callsOf (calls : List (EngineKind × String)) (k : String) : List EngineKind :=
  (calls.filter (fun c => decide (c.2 = k))).map Prod.fst

def callsFor (st : AudioState) (k : String) : List EngineKind := callsOf st.calls k

theorem callsOf_append (a b : List (EngineKind × String)) (k : String) :
    callsOf (a ++ b) k = callsOf a k ++ callsOf b k := by
  simp [callsOf]

theorem callsOf_all_key (Δ : List (EngineKind × String)) (k : String)
    (h : ∀ c ∈ Δ, c.2 = k) : callsOf Δ k = Δ.map Prod.fst := by
  induction Δ with
  | nil => rfl
  | cons hd tl ih =>
    have hhd : hd.2 = k := h hd (List.mem_cons_self _ _)
    have ih' := ih (fun c hc => h c (List.mem_cons_of_mem _ hc))
    simp only [callsOf] at ih' ⊢
    simp [List.filter_cons, hhd, ih']

theorem callsOf_no_key (Δ : List (EngineKind × String)) (k : String)
    (h : ∀ c ∈ Δ, c.2 ≠ k) : callsOf Δ k = [] := by
  induction Δ with
  | nil => rfl
  | cons hd tl ih =>
    have hhd : hd.2 ≠ k := h hd (List.mem_cons_self _ _)
    have ih' := ih (fun c hc => h c (List.mem_cons_of_mem _ hc))
    simp only [callsOf] at ih' ⊢
    simp [List.filter_cons, hhd, ih']

/-- The selected engine always succeeds and produces output that passes
`_validate_wav`. -/
def goodPrimary (P : String → Option Wav) : Prop :=
  ∀ t, ∃ w, P t = some w ∧ validWav (some w) = true

/-- Run invariant for the synthesis-call trace: per key the calls are one
of the four possible per-item patterns; a key with calls is in the in-run
cache; the initial disk contents survive; a key whose file was on disk at
the start is never synthesized; and under an always-valid engine the
original engine stays selected and no fallback call ever happens. -/
def CallsInv (P : String → Option Wav) (disk0 : List (String × Wav))
    (st : AudioState) : Prop :=
  (∀ k, callsFor st k = [] ∨ callsFor st k = [EngineKind.primary] ∨
    callsFor st k = [EngineKind.offlineStub] ∨
    callsFor st k = [EngineKind.primary, EngineKind.offlineStub]) ∧
  (∀ k, callsFor st k ≠ [] → (lookupStr st.cache k).isSome = true) ∧
  (∀ p, (lookupStr disk0 p).isSome = true → (lookupStr st.disk p).isSome = true) ∧
  (∀ k, (lookupStr disk0 (fileNameOf k)).isSome = true → callsFor st k = []) ∧
  (goodPrimary P → st.curPrimary = true ∧
    ∀ k, callsFor st k = [] ∨ callsFor st k = [EngineKind.primary])

/-- Extending only the in-run cache (and possibly the concat cache and
disk) preserves the invariant. -/
theorem CallsInv_cache_extend (P : String → Option Wav)
    (disk0 : List (String × Wav)) (st : AudioState)
    (cache' : List (String × String)) (disk' : List (String × Wav))
    (concat' : List (String × String))
    (hc : ∀ k, (lookupStr st.cache k).isSome = true →
      (lookupStr cache' k).isSome = true)
    (hd : ∀ p, (lookupStr st.disk p).isSome = true →
      (lookupStr disk' p).isSome = true)
    (hInv : CallsInv P disk0 st) :
    CallsInv P disk0
      { curPrimary := st.curPrimary, cache := cache', disk := disk',
        concatCache := concat', calls := st.calls } := by
  obtain ⟨h1, h2, h3, h4, h5⟩ := hInv
  exact ⟨h1, fun k hk => hc k (h2 k hk), fun p hp => hd p (h3 p hp), h4,
    fun hg => ⟨(h5 hg).1, (h5 hg).2⟩⟩

/-- A synthesis update for a fresh key preserves the invariant. -/
theorem CallsInv_synth_update (P : String → Option Wav)
    (disk0 : List (String × Wav)) (st : AudioState) (key : String)
    (Δ : List (EngineKind × String)) (b' : Bool) (disk' : List (String × Wav))
    (concat' : List (String × String))
    (hΔkeys : ∀ c ∈ Δ, c.2 = key)
    (hshape : Δ.map Prod.fst = [EngineKind.primary] ∨
      Δ.map Prod.fst = [EngineKind.offlineStub] ∨
      Δ.map Prod.fst = [EngineKind.primary, EngineKind.offlineStub])
    (hmiss : lookupStr st.cache key = none)
    (hdiskmiss : (lookupStr st.disk (fileNameOf key)).isSome = false)
    (hd : ∀ p, (lookupStr st.disk p).isSome = true →
      (lookupStr disk' p).isSome = true)
    (hgood : goodPrimary P → b' = true ∧ Δ.map Prod.fst = [EngineKind.primary])
    (hInv : CallsInv P disk0 st) :
    CallsInv P disk0
      { curPrimary := b', cache := setStr st.cache key (fileNameOf key),
        disk := disk', concatCache := concat', calls := st.calls ++ Δ } := by
  obtain ⟨h1, h2, h3, h4, h5⟩ := hInv
  have hcallsKey : callsFor st key = [] := by
    by_contra hne
    have h' := h2 key hne
    rw [hmiss] at h'
    simp at h'
  have hall : ∀ k, callsOf (st.calls ++ Δ) k =
      callsFor st k ++ (if k = key then Δ.map Prod.fst else []) := by
    intro k
    rw [callsOf_append]
    by_cases hk : k = key
    · subst hk
      rw [callsOf_all_key Δ k hΔkeys, if_pos rfl]
      rfl
    · rw [callsOf_no_key Δ k
        (fun c hc hcon => hk (by rw [← hcon, hΔkeys c hc])), if_neg hk]
      rfl
  refine ⟨?_, ?_, ?_, ?_, ?_⟩
  · intro k
    show callsOf (st.calls ++ Δ) k = [] ∨
      callsOf (st.calls ++ Δ) k = [EngineKind.primary] ∨
      callsOf (st.calls ++ Δ) k = [EngineKind.offlineStub] ∨
      callsOf (st.calls ++ Δ) k = [EngineKind.primary, EngineKind.offlineStub]
    rw [hall k]
    by_cases hk : k = key
    · subst hk
      rw [hcallsKey, if_pos rfl, List.nil_append]
      rcases hshape with h | h | h <;> rw [h] <;> simp
    · rw [if_neg hk, List.append_nil]
      exact h1 k
  · intro k hk
    show (lookupStr (setStr st.cache key (fileNameOf key)) k).isSome = true
    rw [lookupStr_setStr]
    by_cases hkey : key = k
    · rw [if_pos hkey]
      rfl
    · rw [if_neg hkey]
      apply h2
      intro hcon
      apply hk
      show callsOf (st.calls ++ Δ) k = []
      rw [hall k, hcon, if_neg (fun hcc => hkey hcc.symm)]
      rfl
  · intro p hp
    exact hd p (h3 p hp)
  · intro k hk
    show callsOf (st.calls ++ Δ) k = []
    rw [hall k]
    by_cases hkey : k = key
    · subst hkey
      rw [h3 _ hk] at hdiskmiss
      exact Bool.noConfusion hdiskmiss
    · rw [if_neg hkey, List.append_nil]
      exact h4 k hk
  · intro hg
    refine ⟨(hgood hg).1, ?_⟩
    intro k
    show callsOf (st.calls ++ Δ) k = [] ∨
      callsOf (st.calls ++ Δ) k = [EngineKind.primary]
    rw [hall k]
    by_cases hk : k = key
    · subst hk
      rw [hcallsKey, (hgood hg).2, if_pos rfl]
      right
      rfl
    · rw [if_neg hk, List.append_nil]
      exact (h5 hg).2 k

theorem lookupStr_setStr_mono {α : Type} (m : List (String × α)) (k₀ k : String)
    (v : α) (h : (lookupStr m k).isSome = true) :
    (lookupStr (setStr m k₀ v) k).isSome = true := by
  rw [lookupStr_setStr]
  by_cases hk : k₀ = k
  · rw [if_pos hk]
    rfl
  · rw [if_neg hk]
    exact h

/-- `ensure_audio` always returns `ok` (the fallback's output always
passes validation) and preserves the call-trace invariant. -/
theorem ensure_audio_step (P : String → Option Wav) (disk0 : List (String × Wav))
    (language : String) (voice : Option String) (st : AudioState)
    (text level : String) (hInv : CallsInv P disk0 st) :
    ∃ r st', ensure_audio P language voice st text level = Except.ok (r, st') ∧
      CallsInv P disk0 st' := by
  unfold ensure_audio
  by_cases hempty : (strTrim text) = ""
  · rw [if_pos hempty]
    exact ⟨none, st, rfl, hInv⟩
  · rw [if_neg hempty]
    cases hc : lookupStr st.cache (audio_key level language voice (strTrim text)) with
    | some path => exact ⟨some path, st, rfl, hInv⟩
    | none =>
      by_cases hdisk : (lookupStr st.disk
          (fileNameOf (audio_key level language voice (strTrim text)))).isSome = true
      · rw [if_pos hdisk]
        refine ⟨_, _, rfl, ?_⟩
        exact CallsInv_cache_extend P disk0 st _ st.disk st.concatCache
          (fun k hk => lookupStr_setStr_mono _ _ _ _ hk) (fun p hp => hp) hInv
      · have hdisk' : (lookupStr st.disk
            (fileNameOf (audio_key level language voice (strTrim text)))).isSome = false :=
          Bool.eq_false_iff.mpr hdisk
        rw [if_neg hdisk]
        by_cases hcp : st.curPrimary = true
        · rw [if_pos hcp]
          cases hP : P (strTrim text) with
          | some w =>
            simp only [Option.elim_none, Option.elim_some]
            by_cases hvw : validWav (some w) = true
            · rw [if_pos hvw]
              refine ⟨_, _, rfl, ?_⟩
              exact CallsInv_synth_update P disk0 st _
                [(EngineKind.primary, audio_key level language voice (strTrim text))]
                st.curPrimary _ st.concatCache
                (by intro c hcmem; rw [List.mem_singleton] at hcmem; rw [hcmem])
                (Or.inl rfl) hc hdisk'
                (fun p hp => lookupStr_setStr_mono _ _ _ _ hp)
                (fun _ => ⟨hcp, rfl⟩) hInv
            · rw [if_neg hvw]
              unfold stub_attempt
              rw [if_pos (simple_tts_wav_valid (strTrim text))]
              refine ⟨_, _, rfl, ?_⟩
              rw [List.append_assoc]
              exact CallsInv_synth_update P disk0 st _
                [(EngineKind.primary, audio_key level language voice (strTrim text)),
                 (EngineKind.offlineStub, audio_key level language voice (strTrim text))]
                false _ st.concatCache
                (by
                  intro c hcmem
                  rcases List.mem_cons.mp hcmem with h | h
                  · rw [h]
                  · rw [List.mem_singleton] at h
                    rw [h])
                (Or.inr (Or.inr rfl)) hc hdisk'
                (fun p hp =>
                  lookupStr_setStr_mono _ _ _ _ (lookupStr_setStr_mono _ _ _ _ hp))
                (fun hg => by
                  obtain ⟨w', hw', hvw'⟩ := hg (strTrim text)
                  rw [hP] at hw'
                  cases hw'
                  exact absurd hvw' hvw) hInv
          | none =>
            unfold stub_attempt
            rw [if_pos (simple_tts_wav_valid (strTrim text))]
            refine ⟨_, _, rfl, ?_⟩
            rw [List.append_assoc]
            exact CallsInv_synth_update P disk0 st _
              [(EngineKind.primary, audio_key level language voice (strTrim text)),
               (EngineKind.offlineStub, audio_key level language voice (strTrim text))]
              false _ st.concatCache
              (by
                intro c hcmem
                rcases List.mem_cons.mp hcmem with h | h
                · rw [h]
                · rw [List.mem_singleton] at h
                  rw [h])
              (Or.inr (Or.inr rfl)) hc hdisk'
              (fun p hp => lookupStr_setStr_mono _ _ _ _ hp)
              (fun hg => by
                obtain ⟨w', hw', hvw'⟩ := hg (strTrim text)
                rw [hP] at hw'
                exact Option.noConfusion hw') hInv
        · rw [if_neg hcp]
          rw [if_pos (simple_tts_wav_valid (strTrim text))]
          refine ⟨_, _, rfl, ?_⟩
          exact CallsInv_synth_update P disk0 st _
            [(EngineKind.offlineStub, audio_key level language voice (strTrim text))]
            st.curPrimary _ st.concatCache
            (by intro c hcmem; rw [List.mem_singleton] at hcmem; rw [hcmem])
            (Or.inr (Or.inl rfl)) hc hdisk'
            (fun p hp => lookupStr_setStr_mono _ _ _ _ hp)
            (fun hg => absurd (hInv.2.2.2.2 hg).1 hcp) hInv

theorem process_token_spec (P : String → Option Wav)
    (disk0 : List (String × Wav)) (language : String) (voice : Option String)
    (tok : Token) (st : AudioState) (hInv : CallsInv P disk0 st) :
    ∃ tok' st', process_token P language voice tok st = Except.ok (tok', st') ∧
      CallsInv P disk0 st' ∧ tok'.surface = tok.surface := by
  unfold process_token
  by_cases hw : is_word_token (surfaceStr tok.surface) = true
  · rw [if_pos hw]
    obtain ⟨r, st', hok, hInv'⟩ := ensure_audio_step P disk0 language voice st
      (token_synth_key (tok.annotations.getD []) (surfaceStr tok.surface)) "token" hInv
    rw [hok, exBind_ok]
    exact ⟨_, _, rfl, hInv', token_with_audio_surface tok r⟩
  · rw [if_neg hw]
    exact ⟨_, _, rfl, hInv, token_with_audio_surface tok none⟩

theorem process_tokens_spec (P : String → Option Wav)
    (disk0 : List (String × Wav)) (language : String) (voice : Option String) :
    ∀ (toks : List Token) (st : AudioState), CallsInv P disk0 st →
    ∃ out st', process_tokens P language voice toks st = Except.ok (out, st') ∧
      CallsInv P disk0 st' ∧ out.map Token.surface = toks.map Token.surface := by
  intro toks
  induction toks with
  | nil => exact fun st hInv => ⟨[], st, rfl, hInv, rfl⟩
  | cons tok rest ih =>
    intro st hInv
    obtain ⟨tok', st', hok, hInv', hsurf⟩ :=
      process_token_spec P disk0 language voice tok st hInv
    obtain ⟨out, st'', hok2, hInv'', hsurf2⟩ := ih st' hInv'
    refine ⟨tok' :: out, st'', ?_, hInv'', ?_⟩
    · unfold process_tokens
      rw [hok, exBind_ok]
      show exBind (process_tokens P language voice rest st') _ = _
      rw [hok2, exBind_ok]
    · simp [hsurf, hsurf2]

theorem process_segment_spec (P : String → Option Wav)
    (disk0 : List (String × Wav)) (language : String) (voice : Option String)
    (seg : Segment) (st : AudioState) (hInv : CallsInv P disk0 st) :
    ∃ seg' audio st',
      process_segment P language voice seg st = Except.ok (seg', audio, st') ∧
      CallsInv P disk0 st' ∧
      (seg'.tokens.getD []).map Token.surface =
        (seg.tokens.getD []).map Token.surface := by
  obtain ⟨out, st', hok, hInv', hsurf⟩ :=
    process_tokens_spec P disk0 language voice (seg.tokens.getD []) st hInv
  obtain ⟨r, st'', hok2, hInv''⟩ := ensure_audio_step P disk0 language voice st'
    (surfaceStr seg.surface) "segment" hInv'
  refine ⟨segment_rebuilt seg out r, r, st'', ?_, hInv'', ?_⟩
  · unfold process_segment
    rw [hok, exBind_ok, hok2, exBind_ok]
  · show ((segment_rebuilt seg out r).tokens.getD []).map Token.surface = _
    unfold segment_rebuilt
    by_cases hout : out.isEmpty
    · rw [List.isEmpty_iff] at hout
      subst hout
      rfl
    · have hfalse : out.isEmpty = false := Bool.eq_false_iff.mpr hout
      simp only [hfalse, Bool.false_eq_true, if_false, Option.getD_some]
      exact hsurf

theorem process_segments_spec (P : String → Option Wav)
    (disk0 : List (String × Wav)) (language : String) (voice : Option String) :
    ∀ (segs : List Segment) (st : AudioState), CallsInv P disk0 st →
    ∃ segs' paths st',
      process_segments P language voice segs st = Except.ok (segs', paths, st') ∧
      CallsInv P disk0 st' ∧
      segs'.map (fun s => (s.tokens.getD []).map Token.surface) =
        segs.map (fun s => (s.tokens.getD []).map Token.surface) := by
  intro segs
  induction segs with
  | nil => exact fun st hInv => ⟨[], [], st, rfl, hInv, rfl⟩
  | cons seg rest ih =>
    intro st hInv
    obtain ⟨seg', audio, st', hok, hInv', hsurf⟩ :=
      process_segment_spec P disk0 language voice seg st hInv
    obtain ⟨segs', paths, st'', hok2, hInv'', hsurf2⟩ := ih st' hInv'
    refine ⟨seg' :: segs',
      (match audio with | some p => p :: paths | none => paths), st'', ?_,
      hInv'', ?_⟩
    · unfold process_segments
      simp only [hok, exBind_ok, hok2]
      cases audio <;> rfl
    · simp [hsurf, hsurf2]

/-- The concatenation step touches only the disk (grows it) and the
concat cache, so it preserves the invariant. -/
theorem CallsInv_page_concat (P : String → Option Wav)
    (disk0 : List (String × Wav)) (st : AudioState)
    (paths : List String) (hInv : CallsInv P disk0 st) :
    CallsInv P disk0 (page_concat_state st paths) := by
  obtain ⟨h1, h2, h3, h4, h5⟩ := hInv
  unfold page_concat_state
  split
  · exact ⟨h1, h2, h3, h4, h5⟩
  · split
    · exact ⟨h1, h2, h3, h4, h5⟩
    · split
      · exact ⟨h1, h2, h3, h4, h5⟩
      · split
        · exact ⟨h1, h2,
            fun p hp => lookupStr_setStr_mono _ _ _ _ (h3 p hp), h4, h5⟩
        · exact ⟨h1, h2, h3, h4, h5⟩

theorem process_page_spec (P : String → Option Wav)
    (disk0 : List (String × Wav)) (language : String) (voice : Option String)
    (page : Page) (st : AudioState) (hInv : CallsInv P disk0 st) :
    ∃ page' st', process_page P language voice page st = Except.ok (page', st') ∧
      CallsInv P disk0 st' ∧
      page'.segments.map (fun s => (s.tokens.getD []).map Token.surface) =
        page.segments.map (fun s => (s.tokens.getD []).map Token.surface) := by
  obtain ⟨segs', paths, st', hok, hInv', hsurf⟩ :=
    process_segments_spec P disk0 language voice page.segments st hInv
  refine ⟨page_rebuilt page segs' (page_concat_state st' paths) paths,
    page_concat_state st' paths, ?_,
    CallsInv_page_concat P disk0 st' paths hInv', ?_⟩
  · unfold process_page
    rw [hok, exBind_ok]
  · exact hsurf

theorem process_pages_spec (P : String → Option Wav)
    (disk0 : List (String × Wav)) (language : String) (voice : Option String) :
    ∀ (pages : List Page) (st : AudioState), CallsInv P disk0 st →
    ∃ pages' st',
      process_pages P language voice pages st = Except.ok (pages', st') ∧
      CallsInv P disk0 st' ∧
      pages'.map (fun p =>
        p.segments.map (fun s => (s.tokens.getD []).map Token.surface)) =
      pages.map (fun p =>
        p.segments.map (fun s => (s.tokens.getD []).map Token.surface)) := by
  intro pages
  induction pages with
  | nil => exact fun st hInv => ⟨[], st, rfl, hInv, rfl⟩
  | cons page rest ih =>
    intro st hInv
    obtain ⟨page', st', hok, hInv', hsurf⟩ :=
      process_page_spec P disk0 language voice page st hInv
    obtain ⟨pages', st'', hok2, hInv'', hsurf2⟩ := ih st' hInv'
    refine ⟨page' :: pages', st'', ?_, hInv'', ?_⟩
    · unfold process_pages
      rw [hok, exBind_ok]
      show exBind (process_pages P language voice rest st') _ = _
      rw [hok2, exBind_ok]
    · simp [hsurf, hsurf2]

/-- The initial state satisfies the invariant. -/
theorem CallsInv_init (P : String → Option Wav) (disk0 : List (String × Wav)) :
    CallsInv P disk0
      { curPrimary := true, cache := [], disk := disk0, concatCache := [],
        calls := [] } := by
  refine ⟨?_, ?_, ?_, ?_, ?_⟩
  · intro k
    left
    rfl
  · intro k hk
    exact absurd rfl hk
  · intro p hp
    exact hp
  · intro k hk
    rfl
  · intro hg
    exact ⟨rfl, fun k => Or.inl rfl⟩

/-- `annotate_audio` always completes with `ok`, preserves the document
skeleton (page count, per-page segment count, per-segment token surfaces)
and its synthesis-call trace satisfies the per-key call patterns. -/
theorem annotate_audio_spec (P : String → Option Wav) (language : String)
    (voice : Option String) (doc : TextDoc) (disk0 : List (String × Wav)) :
    ∃ doc' st, annotate_audio P language voice doc disk0 = Except.ok (doc', st) ∧
      CallsInv P disk0 st ∧
      doc'.pages.map (fun p =>
        p.segments.map (fun s => (s.tokens.getD []).map Token.surface)) =
      doc.pages.map (fun p =>
        p.segments.map (fun s => (s.tokens.getD []).map Token.surface)) := by
  obtain ⟨pages', st, hok, hInv, hsurf⟩ :=
    process_pages_spec P disk0 language voice doc.pages
      { curPrimary := true, cache := [], disk := disk0, concatCache := [],
        calls := [] } (CallsInv_init P disk0)
  refine ⟨{ l2 := some (doc.l2.getD (AVal.s language))
            l1 := some (doc.l1.getD AVal.null)
            title := some (doc.title.getD AVal.null)
            surface := some (doc.surface.getD (AVal.s ""))
            pages := pages'
            annotations := some (doc.annotations.getD []) }, st, ?_, hInv, ?_⟩
  · unfold annotate_audio
    rw [hok, exBind_ok]
  · exact hsurf

/-- Tiny always-valid engine output used by the concrete scenarios. -/
def tinyWav : Wav :=
  { nchannels := 1, sampwidth := 2, framerate := 10, nframes := 1, frames := [0] }

def tinyEngine : String → Option Wav := fun _ => some tinyWav

/-- An engine whose synthesis call always raises. -/
def failEngine : String → Option Wav := fun _ => none

/-- An engine producing files that pass `_validate_wav` but have an
invalid channel count (exposed only by `_concat_wave_files`). -/
def badChannelWav : Wav :=
  { nchannels := 0, sampwidth := 2, framerate := 10, nframes := 1, frames := [0] }

def badChannelEngine : String → Option Wav := fun _ => some badChannelWav

/-- The `"echo echo"` segment: one repeated lexical token. -/
def echoSeg : Segment :=
  { surface := some (AVal.s "echo echo")
    tokens := some [{ surface := some (AVal.s "echo") },
                    { surface := some (AVal.s " ") },
                    { surface := some (AVal.s "echo") }] }

def echoDoc : TextDoc :=
  { pages := [{ surface := some (AVal.s "echo echo"), segments := [echoSeg] }] }

/-- Two-page document used to show that a page-level concat failure is
scoped to its page. -/
def twoPageDoc : TextDoc :=
  { pages :=
      [{ surface := some (AVal.s "p1")
         segments := [{ surface := some (AVal.s "aa") },
                      { surface := some (AVal.s "bb") }] },
       { surface := some (AVal.s "p2")
         segments := [{ surface := some (AVal.s "cc") }] }] }

def resultCalls (e : Except String (TextDoc × AudioState)) :
    List (EngineKind × String) :=
  match e with
  | Except.ok rs => rs.2.calls
  | Except.error _ => []

def resultDoc (e : Except String (TextDoc × AudioState)) : TextDoc :=
  match e with
  | Except.ok rs => rs.1
  | Except.error _ => {}

/-- C5: within one `annotate_audio` run under an engine whose calls
succeed and validate, at most one synthesis call is performed per
distinct cache key `level:language:voice:normalize(text)`, none at all
when the key's file already exists on disk, and the `"echo echo"`
segment with a repeated lexical token triggers exactly 2 synthesis calls
(one shared token clip, one segment clip), not 3. -/
theorem C5_synthesis_cache_idempotence (P : String → Option Wav)
    (language : String) (voice : Option String) (doc : TextDoc)
    (disk0 : List (String × Wav)) (hP : goodPrimary P) :
    (∃ doc' st, annotate_audio P language voice doc disk0 = Except.ok (doc', st) ∧
      (∀ k, (callsFor st k).length ≤ 1) ∧
      (∀ k, (lookupStr disk0 (fileNameOf k)).isSome = true →
        callsFor st k = [])) ∧
    resultCalls (annotate_audio tinyEngine "en" none echoDoc []) =
      [(EngineKind.primary, "token:en:default:echo"),
       (EngineKind.primary, "segment:en:default:echo echo")] := by
  constructor
  · obtain ⟨doc', st, hok, hInv, hsurf⟩ :=
      annotate_audio_spec P language voice doc disk0
    refine ⟨doc', st, hok, ?_, hInv.2.2.2.1⟩
    intro k
    rcases (hInv.2.2.2.2 hP).2 k with h | h <;> rw [h] <;> simp
  · decide

theorem C5_synthesis_cache_idempotence_witness :
    goodPrimary tinyEngine ∧
    ((∃ doc' st,
        annotate_audio tinyEngine "en" none echoDoc [] = Except.ok (doc', st) ∧
        (∀ k, (callsFor st k).length ≤ 1) ∧
        (∀ k, (lookupStr ([] : List (String × Wav)) (fileNameOf k)).isSome = true →
          callsFor st k = [])) ∧
      resultCalls (annotate_audio tinyEngine "en" none echoDoc []) =
        [(EngineKind.primary, "token:en:default:echo"),
         (EngineKind.primary, "segment:en:default:echo echo")]) := by
  have hgood : goodPrimary tinyEngine := fun t => ⟨tinyWav, rfl, by decide⟩
  exact ⟨hgood,
    C5_synthesis_cache_idempotence tinyEngine "en" none echoDoc [] hgood⟩

/-- C6: whatever the engine does, `annotate_audio` completes and
processes every page, segment and token (failures never abort the run);
per cache key there is at most one attempt with the selected engine plus
at most one fallback attempt with the deterministic offline engine; and
with an engine that always fails, the trace shows the single fallback per
item while the rest of the document is still processed. -/
theorem C6_fallback_scoped (P : String → Option Wav) (language : String)
    (voice : Option String) (doc : TextDoc) (disk0 : List (String × Wav)) :
    (∃ doc' st, annotate_audio P language voice doc disk0 = Except.ok (doc', st) ∧
      doc'.pages.map (fun p =>
        p.segments.map fun s => (s.tokens.getD []).map Token.surface) =
      doc.pages.map (fun p =>
        p.segments.map fun s => (s.tokens.getD []).map Token.surface) ∧
      (∀ k, callsFor st k = [] ∨ callsFor st k = [EngineKind.primary] ∨
        callsFor st k = [EngineKind.offlineStub] ∨
        callsFor st k = [EngineKind.primary, EngineKind.offlineStub]) ∧
      (∀ k, (callsFor st k).length ≤ 2)) ∧
    resultCalls (annotate_audio failEngine "en" none echoDoc []) =
      [(EngineKind.primary, "token:en:default:echo"),
       (EngineKind.offlineStub, "token:en:default:echo"),
       (EngineKind.offlineStub, "segment:en:default:echo echo")] := by
  constructor
  · obtain ⟨doc', st, hok, hInv, hsurf⟩ :=
      annotate_audio_spec P language voice doc disk0
    refine ⟨doc', st, hok, hsurf, hInv.1, ?_⟩
    intro k
    rcases hInv.1 k with h | h | h | h <;> rw [h] <;> simp
  · decide

/-- C7: `_concat_wave_files` takes the page's segment clips in document
order and: writes nothing for zero inputs; copies the single input
verbatim for one input; for several inputs validates the first file's
channel count, sample width and frame rate and appends all frames under
the first file's parameters; an invalid first header raises a synthesis
error.  The error is scoped to that page: the run always completes, and
in the concrete two-page document the first page (whose clips have an
invalid channel count) ends up without page audio while the second page
still gets its own. -/
theorem C7_page_concat (w first : Wav) (rest : List Wav) (hrest : rest ≠ [])
    (P : String → Option Wav) (language : String) (voice : Option String)
    (doc : TextDoc) (disk0 : List (String × Wav)) :
    concat_wave_files [] = ConcatResult.noOutput ∧
    concat_wave_files [w] = ConcatResult.wrote w ∧
    (¬ (first.nchannels ≤ 0 ∨
        (first.sampwidth ≠ 1 ∧ first.sampwidth ≠ 2 ∧
         first.sampwidth ≠ 3 ∧ first.sampwidth ≠ 4) ∨
        first.framerate ≤ 0) →
      concat_wave_files (first :: rest) = ConcatResult.wrote
        { nchannels := first.nchannels, sampwidth := first.sampwidth,
          framerate := first.framerate,
          nframes := first.nframes + (rest.map Wav.nframes).sum,
          frames := first.frames ++ (rest.map Wav.frames).flatten }) ∧
    ((first.nchannels ≤ 0 ∨
        (first.sampwidth ≠ 1 ∧ first.sampwidth ≠ 2 ∧
         first.sampwidth ≠ 3 ∧ first.sampwidth ≠ 4) ∨
        first.framerate ≤ 0) →
      concat_wave_files (first :: rest) = ConcatResult.raisedError) ∧
    (∃ doc' st, annotate_audio P language voice doc disk0 = Except.ok (doc', st) ∧
      doc'.pages.length = doc.pages.length) ∧
    ((resultDoc (annotate_audio badChannelEngine "en" none twoPageDoc [])).pages.length = 2 ∧
     alookup (((resultDoc (annotate_audio badChannelEngine "en" none
         twoPageDoc [])).pages.getD 0 {}).annotations.getD []) "audio" = none ∧
     (alookup (((resultDoc (annotate_audio badChannelEngine "en" none
         twoPageDoc [])).pages.getD 1 {}).annotations.getD []) "audio").isSome = true) := by
  refine ⟨rfl, rfl, ?_, ?_, ?_, ?_⟩
  · intro hval
    cases rest with
    | nil => exact absurd rfl hrest
    | cons r rs =>
      show (if first.nchannels ≤ 0 ∨
          (first.sampwidth ≠ 1 ∧ first.sampwidth ≠ 2 ∧
           first.sampwidth ≠ 3 ∧ first.sampwidth ≠ 4) ∨
          first.framerate ≤ 0 then ConcatResult.raisedError
        else ConcatResult.wrote
          { nchannels := first.nchannels, sampwidth := first.sampwidth,
            framerate := first.framerate,
            nframes := first.nframes + ((r :: rs).map Wav.nframes).sum,
            frames := first.frames ++ ((r :: rs).map Wav.frames).flatten }) = _
      rw [if_neg hval]
  · intro hval
    cases rest with
    | nil => exact absurd rfl hrest
    | cons r rs =>
      show (if first.nchannels ≤ 0 ∨
          (first.sampwidth ≠ 1 ∧ first.sampwidth ≠ 2 ∧
           first.sampwidth ≠ 3 ∧ first.sampwidth ≠ 4) ∨
          first.framerate ≤ 0 then ConcatResult.raisedError
        else ConcatResult.wrote
          { nchannels := first.nchannels, sampwidth := first.sampwidth,
            framerate := first.framerate,
            nframes := first.nframes + ((r :: rs).map Wav.nframes).sum,
            frames := first.frames ++ ((r :: rs).map Wav.frames).flatten }) = _
      rw [if_pos hval]
  · obtain ⟨doc', st, hok, _, hsurf⟩ :=
      annotate_audio_spec P language voice doc disk0
    refine ⟨doc', st, hok, ?_⟩
    have := congrArg List.length hsurf
    simpa using this
  · refine ⟨?_, ?_, ?_⟩ <;> decide

theorem C7_page_concat_witness :
    ([tinyWav] : List Wav) ≠ [] ∧
    (concat_wave_files [] = ConcatResult.noOutput ∧
    concat_wave_files [tinyWav] = ConcatResult.wrote tinyWav ∧
    (¬ (tinyWav.nchannels ≤ 0 ∨
        (tinyWav.sampwidth ≠ 1 ∧ tinyWav.sampwidth ≠ 2 ∧
         tinyWav.sampwidth ≠ 3 ∧ tinyWav.sampwidth ≠ 4) ∨
        tinyWav.framerate ≤ 0) →
      concat_wave_files (tinyWav :: [tinyWav]) = ConcatResult.wrote
        { nchannels := tinyWav.nchannels, sampwidth := tinyWav.sampwidth,
          framerate := tinyWav.framerate,
          nframes := tinyWav.nframes + (([tinyWav] : List Wav).map Wav.nframes).sum,
          frames := tinyWav.frames ++ (([tinyWav] : List Wav).map Wav.frames).flatten }) ∧
    ((tinyWav.nchannels ≤ 0 ∨
        (tinyWav.sampwidth ≠ 1 ∧ tinyWav.sampwidth ≠ 2 ∧
         tinyWav.sampwidth ≠ 3 ∧ tinyWav.sampwidth ≠ 4) ∨
        tinyWav.framerate ≤ 0) →
      concat_wave_files (tinyWav :: [tinyWav]) = ConcatResult.raisedError) ∧
    (∃ doc' st,
      annotate_audio tinyEngine "en" none echoDoc [] = Except.ok (doc', st) ∧
      doc'.pages.length = echoDoc.pages.length) ∧
    ((resultDoc (annotate_audio badChannelEngine "en" none twoPageDoc [])).pages.length = 2 ∧
     alookup (((resultDoc (annotate_audio badChannelEngine "en" none
         twoPageDoc [])).pages.getD 0 {}).annotations.getD []) "audio" = none ∧
     (alookup (((resultDoc (annotate_audio badChannelEngine "en" none
         twoPageDoc [])).pages.getD 1 {}).annotations.getD []) "audio").isSome = true)) :=
  ⟨by decide,
    C7_page_concat tinyWav tinyWav [tinyWav] (by decide) tinyEngine "en" none
      echoDoc []⟩

/-! ## HTML compilation (compile_html.py, claims C9, C10)

`_escape` applies NFC normalization, `html.escape(..., quote=True)` and
an ASCII re-encoding with `xmlcharrefreplace`; NFC normalization is
modelled as the identity (the strings the claims evaluate are ASCII,
where NFC is the identity).  `urllib.parse.quote` and the
`encodeURIComponent` call in the emitted client script
(`clara_scripts.js`, function `loadConcordance`) are both modelled
byte-exactly over the UTF-8 encoding. -/

def is_lexical (surface : String) : Bool :=
  if strIsEmpty surface || (!strIsEmpty surface && strAll surface Char.isWhitespace)
    then false
  else strAny surface Char.isAlphanum || strAny surface is_cjk

/-- `html.escape(s, quote=True)` plus `xmlcharrefreplace`, per character:
the post-normalization part of `_escape`. -/
def escapeChar (c : Char) : String :=
  if c = '&' then "&amp;"
  else if c = '<' then "&lt;"
  else if c = '>' then "&gt;"
  else if c = '"' then "&quot;"
  else if c.toNat = 39 then "&#x27;"
  else if 128 ≤ c.toNat then "&#" ++ Nat.repr c.toNat ++ ";"
  else String.singleton c

def escapeHtml (s : String) : String := String.join (s.data.map escapeChar)

/-- `_escape` (compile_html.py lines 56-62): NFC normalization, then HTML
escaping, then ASCII re-encoding with numeric character references.  The
`unicodedata.normalize("NFC", ...)` step is a standard-library function
outside this repository, so the rendering functions take it as the
parameter `nfc`; theorems either hypothesize that the inputs are
NFC-normalized (`nfc s = s` — true in particular of every ASCII string)
or instantiate `nfc` on concrete ASCII inputs, where NFC is the
identity. -/
def escape (nfc : String → String) (s : String) : String := escapeHtml (nfc s)

/-- UTF-8 encoding of one character (what `str.encode("utf-8")` emits). -/
def charUtf8Bytes (c : Char) : List Nat :=
  if c.toNat < 0x80 then [c.toNat]
  else if c.toNat < 0x800 then
    [0xC0 + c.toNat / 0x40, 0x80 + c.toNat % 0x40]
  else if c.toNat < 0x10000 then
    [0xE0 + c.toNat / 0x1000, 0x80 + (c.toNat / 0x40) % 0x40, 0x80 + c.toNat % 0x40]
  else
    [0xF0 + c.toNat / 0x40000, 0x80 + (c.toNat / 0x1000) % 0x40,
     0x80 + (c.toNat / 0x40) % 0x40, 0x80 + c.toNat % 0x40]

def utf8Bytes (s : String) : List Nat := (s.data.map charUtf8Bytes).flatten

/-- Uppercase hex digit, as both `quote` and `encodeURIComponent` emit. -/
def hexDigit (n : Nat) : Char :=
  if n < 10 then Char.ofNat (48 + n) else Char.ofNat (55 + n)

/-- Bytes never percent-escaped by
`quote(lemma, safe="~()*!.'-_")`: ASCII alphanumerics, the always-safe
`_.-~` and the characters of the `safe` parameter. -/
def pyQuoteSafe (b : Nat) : Bool :=
  decide (65 ≤ b ∧ b ≤ 90) || decide (97 ≤ b ∧ b ≤ 122) ||
  decide (48 ≤ b ∧ b ≤ 57) ||
  decide (b = 95 ∨ b = 46 ∨ b = 45 ∨ b = 126 ∨ b = 40 ∨ b = 41 ∨ b = 42 ∨
    b = 33 ∨ b = 39)

/-- Bytes never escaped by ECMAScript `encodeURIComponent`:
alphanumerics and `- _ . ! ~ * ' ( )`. -/
def jsUnreserved (b : Nat) : Bool :=
  decide (65 ≤ b ∧ b ≤ 90) || decide (97 ≤ b ∧ b ≤ 122) ||
  decide (48 ≤ b ∧ b ≤ 57) ||
  decide (b = 45 ∨ b = 95 ∨ b = 46 ∨ b = 33 ∨ b = 126 ∨ b = 42 ∨ b = 39 ∨
    b = 40 ∨ b = 41)

def percentEncodeBytes (safe : Nat → Bool) (bytes : List Nat) : List Char :=
  (bytes.map (fun b =>
    if safe b then [Char.ofNat b] else ['%', hexDigit (b / 16), hexDigit (b % 16)])).flatten

/-- `urllib.parse.quote(s, safe="~()*!.'-_")`. -/
def pythonQuote (s : String) : String :=
  String.mk (percentEncodeBytes pyQuoteSafe (utf8Bytes s))

/-- `encodeURIComponent(s)` as computed by the emitted client script. -/
def encodeURIComponent (s : String) : String :=
  String.mk (percentEncodeBytes jsUnreserved (utf8Bytes s))

/-- `_encode_lemma_for_filename` (compile_html.py lines 46-53). -/
def encode_lemma_for_filename (lem : String) : String :=
  if strIsEmpty lem then "unknown"
  else if strIsEmpty (pythonQuote lem) then "unknown"
  else pythonQuote lem

/-- The concordance file name written at compile_html.py lines 638-639. -/
def concordance_file_name (lem : String) : String :=
  "concordance_" ++ encode_lemma_for_filename lem ++ ".html"

/-- The URL the client script's `loadConcordance` resolves for a lemma:
``concordance_${encodeURIComponent(lemma)}.html``. -/
def js_load_concordance_target (lem : String) : String :=
  "concordance_" ++ encodeURIComponent lem ++ ".html"

/-- Python truthiness of `annotations.get(k)` coerced through `str`. -/
def truthyAnn (annotations : AMap) (k : String) : Option String :=
  match alookup annotations k with
  | some (AVal.s v) => if strIsEmpty v then none else some v
  | _ => none

/-- `_token_display` (compile_html.py lines 120-126). -/
def token_display (nfc : String → String) (token : Token) : String :=
  match truthyAnn (token.annotations.getD []) "pinyin" with
  | some p => "<ruby><rb>" ++ escape nfc (surfaceStr token.surface) ++ "</rb><rt>" ++
      escape nfc p ++ "</rt></ruby>"
  | none => escape nfc (surfaceStr token.surface)

/-- One iteration of the `_render_tokens` loop (compile_html.py lines
140-196).  Audio metadata values are dict-valued in Python; the scalar
annotation model has no dict values, so `isinstance(audio_meta, dict)`
is `False` and no `data-audio` attribute is produced — none of the
claims concerns that attribute. -/
def render_one_token (nfc : String → String) (tokenId : Option String)
    (highlight : Option String) (token : Token) : String :=
  if !(is_lexical (surfaceStr token.surface) ||
      !(token.annotations.getD []).isEmpty) then
    escape nfc (surfaceStr token.surface)
  else
    "<span class=\"" ++
    String.intercalate " "
      (["token"] ++
       (match highlight, truthyAnn (token.annotations.getD []) "lemma" with
        | some h, some l =>
          if !(strIsEmpty h) && l = h then ["concordance-highlight"] else []
        | _, _ => [])) ++
    "\" " ++
    String.intercalate " "
      ((match tokenId with
        | some tid => ["data-token-id=\"" ++ tid ++ "\""]
        | none => []) ++
       (match truthyAnn (token.annotations.getD []) "lemma" with
        | some l => ["data-lemma=\"" ++ escape nfc l ++ "\""]
        | none => []) ++
       (match truthyAnn (token.annotations.getD []) "gloss" with
        | some g => ["data-gloss=\"" ++ escape nfc g ++ "\""]
        | none => []) ++
       (match truthyAnn (token.annotations.getD []) "pos" with
        | some p => ["data-pos=\"" ++ escape nfc p ++ "\""]
        | none => []) ++
       (match truthyAnn (token.annotations.getD []) "mwe_id" with
        | some m => ["data-mwe-id=\"" ++ escape nfc m ++ "\""]
        | none => [])) ++
    ">" ++ token_display nfc token ++ "</span>"

/-- `_render_tokens` over a token list. -/
def render_tokens (nfc : String → String) (tokens : List Token)
    (pageIdx segIdx : Nat) (tokenIds : Nat × Nat × Nat → Option String)
    (highlight : Option String) : String :=
  String.join ((tokens.enum).map (fun it =>
    render_one_token nfc (tokenIds (pageIdx, segIdx, it.1)) highlight it.2))

/-- Lexical tokens append one entry to `token_info`; `_build_concordance`
keeps those with a truthy lemma.  The concordance dict keys in
first-occurrence order. -/
def dedupFirst (l : List String) : List String :=
  l.foldl (fun acc x => if x ∈ acc then acc else acc ++ [x]) []

/-- The lemma keys of `_build_concordance`: every lexical token's truthy
lemma, first occurrence order, then sorted case-insensitively
(compile_html.py line 360). -/
def docLemmas (text : TextDoc) : List String :=
  (dedupFirst
    ((text.pages.map (fun p =>
      (p.segments.map (fun s =>
        (s.tokens.getD []).filterMap (fun t =>
          if is_lexical (surfaceStr t.surface) ||
              !(t.annotations.getD []).isEmpty then
            truthyAnn (t.annotations.getD []) "lemma"
          else none))).flatten)).flatten)).mergeSort
    (fun a b => decide (strToLower a ≤ strToLower b))

/-- File-system side effects of `compile_html`, in program order. -/
inductive FsOp where
  | mkdirHtmlRoot
  | mkdirAudioDir
  | writeStatic (name : String)
  | writePage (name : String)
  | writeConcordance (name : String)
  deriving DecidableEq, Repr

inductive CompileErr where
  | indexError
  deriving DecidableEq, Repr

/-- The page loop of `compile_html` (lines 616-628): each iteration
calls `_render_page`, whose first statement
`page = text.get("pages", [])[page_index]` raises `IndexError` when the
index is out of range; on success the page file is written. -/
def write_pages (pages : List Page) : List Nat → List FsOp × Except CompileErr Unit
  | [] => ([], Except.ok ())
  | i :: rest =>
    match pages[i]? with
    | none => ([], Except.error CompileErr.indexError)
    | some _ =>
      let r := write_pages pages rest
      (FsOp.writePage ("page_" ++ Nat.repr (i + 1) ++ ".html") :: r.1, r.2)

/-- `compile_html` (compile_html.py lines 595-648) as a trace of
file-system operations plus an outcome.  `html_root.mkdir` (line 606),
the `_AudioResolver` constructor's `audio_dir.mkdir` (line 91) and
`_write_static_assets` (lines 411-592, two style sheets and one script)
all run before the page loop; `total_pages = len(...) or 1` (line 614)
forces one iteration even for an empty pages list; the concordance
files are written only after every page rendered. -/
def compile_html (text : TextDoc) : List FsOp × Except CompileErr Unit :=
  let pre := [FsOp.mkdirHtmlRoot, FsOp.mkdirAudioDir,
    FsOp.writeStatic "clara_styles_main.css",
    FsOp.writeStatic "clara_styles_concordance.css",
    FsOp.writeStatic "clara_scripts.js"]
  let total_pages := if text.pages.length = 0 then 1 else text.pages.length
  let r := write_pages text.pages (List.range total_pages)
  match r.2 with
  | Except.error e => (pre ++ r.1, Except.error e)
  | Except.ok _ =>
    (pre ++ r.1 ++
      (docLemmas text).map (fun l => FsOp.writeConcordance (concordance_file_name l)),
     Except.ok ())

/-! ## Percent-encoding facts for C9 -/

lemma strIsEmpty_iff (s : String) : strIsEmpty s = true ↔ s = "" := by
  cases s with
  | mk data =>
    cases data with
    | nil => exact iff_of_true rfl rfl
    | cons c cs =>
      apply iff_of_false
      · simp [strIsEmpty]
      · intro hx
        exact List.cons_ne_nil c cs (congrArg String.data hx)

lemma char_toNat_lt (c : Char) : c.toNat < 1114112 := by
  rcases c.valid with h | h
  · exact Nat.lt_trans h (by decide)
  · exact h.2

lemma charUtf8Bytes_lt (c : Char) : ∀ b ∈ charUtf8Bytes c, b < 256 := by
  intro b hb
  have hc := char_toNat_lt c
  unfold charUtf8Bytes at hb
  split_ifs at hb with h1 h2 h3
  · simp only [List.mem_singleton] at hb
    omega
  · simp only [List.mem_cons, List.not_mem_nil, or_false] at hb
    rcases hb with rfl | rfl <;> omega
  · simp only [List.mem_cons, List.not_mem_nil, or_false] at hb
    rcases hb with rfl | rfl | rfl <;> omega
  · simp only [List.mem_cons, List.not_mem_nil, or_false] at hb
    rcases hb with rfl | rfl | rfl | rfl <;> omega

lemma utf8Bytes_lt (s : String) : ∀ b ∈ utf8Bytes s, b < 256 := by
  intro b hb
  unfold utf8Bytes at hb
  rw [List.mem_flatten] at hb
  obtain ⟨l, hl, hbl⟩ := hb
  obtain ⟨c, _, rfl⟩ := List.mem_map.mp hl
  exact charUtf8Bytes_lt c b hbl

set_option maxRecDepth 4096 in
/-- On every byte a UTF-8 encoder can produce, the safe set of
`quote(..., safe="~()*!.'-_")` coincides with the unreserved set of
`encodeURIComponent`. -/
lemma pyQuoteSafe_eq_jsUnreserved : ∀ b < 256, pyQuoteSafe b = jsUnreserved b := by
  decide

/-- Hence the Python-side file-name encoding and the client-side URL
encoding agree on every string. -/
lemma pythonQuote_eq_encodeURIComponent (s : String) :
    pythonQuote s = encodeURIComponent s := by
  unfold pythonQuote encodeURIComponent percentEncodeBytes
  congr 2
  apply List.map_congr_left
  intro b hb
  rw [pyQuoteSafe_eq_jsUnreserved b (utf8Bytes_lt s b hb)]

lemma charUtf8Bytes_ne_nil (c : Char) : charUtf8Bytes c ≠ [] := by
  unfold charUtf8Bytes
  split_ifs <;> simp

lemma utf8Bytes_ne_nil (s : String) (h : s ≠ "") : utf8Bytes s ≠ [] := by
  cases s with
  | mk data =>
    cases data with
    | nil => exact absurd rfl h
    | cons c cs =>
      show (List.map charUtf8Bytes (c :: cs)).flatten ≠ []
      rw [List.map_cons, List.flatten_cons]
      intro hx
      exact charUtf8Bytes_ne_nil c (List.append_eq_nil.mp hx).1

lemma percentEncodeBytes_ne_nil (safe : Nat → Bool) (bytes : List Nat)
    (h : bytes ≠ []) : percentEncodeBytes safe bytes ≠ [] := by
  cases bytes with
  | nil => exact absurd rfl h
  | cons b bs =>
    unfold percentEncodeBytes
    rw [List.map_cons, List.flatten_cons]
    intro hx
    have hh := (List.append_eq_nil.mp hx).1
    split_ifs at hh

lemma strIsEmpty_pythonQuote (s : String) (h : s ≠ "") :
    strIsEmpty (pythonQuote s) = false := by
  have hne := percentEncodeBytes_ne_nil pyQuoteSafe (utf8Bytes s) (utf8Bytes_ne_nil s h)
  show (percentEncodeBytes pyQuoteSafe (utf8Bytes s)).isEmpty = false
  cases hpe : percentEncodeBytes pyQuoteSafe (utf8Bytes s) with
  | nil => exact absurd hpe hne
  | cons x xs => rfl

/-- For a truthy lemma the two `"unknown"` branches are skipped. -/
lemma encode_lemma_of_ne (s : String) (h : s ≠ "") :
    encode_lemma_for_filename s = pythonQuote s := by
  have h1 : ¬ (strIsEmpty s = true) := fun hx => h ((strIsEmpty_iff s).mp hx)
  have h2 : ¬ (strIsEmpty (pythonQuote s) = true) := by
    rw [strIsEmpty_pythonQuote s h]
    exact Bool.false_ne_true
  unfold encode_lemma_for_filename
  rw [if_neg h1, if_neg h2]

lemma span_wrap_eq (e : String) :
    "<span class=\"" ++ "token" ++ "\" " ++ ("data-lemma=\"" ++ e ++ "\"") ++
      ">" ++ "x" ++ "</span>" =
    "<span class=\"token\" data-lemma=\"" ++ e ++ "\">x</span>" := by
  apply String.ext
  simp only [String.data_append]
  simp only [List.append_assoc, List.cons_append, List.nil_append]

def tokC9 : Token :=
  { surface := some (AVal.s "x"), annotations := some [("lemma", AVal.s "\"")] }

/-- **C9, counterexample.**  For the lemma consisting of one double-quote
character, the concordance file name is indeed the percent-escaped
`"%22"`; but the rendered token element does **not** carry that encoded
slug: its `data-lemma` attribute holds the HTML-escaped lemma `&quot;`,
and the slug `%22` occurs nowhere in the rendered span.  Every string of
this fixture (`x`, `"`) is ASCII, and NFC normalization is the identity
on ASCII strings, so the `nfc` parameter is instantiated with the
identity function. -/
theorem C9_counterexample :
    encode_lemma_for_filename "\"" = "%22" ∧
    concordance_file_name "\"" = "concordance_%22.html" ∧
    render_tokens (fun s => s) [tokC9] 0 0 (fun _ => none) none =
      "<span class=\"token\" data-lemma=\"&quot;\">x</span>" ∧
    ¬ ("%22" : String).data <:+:
      (render_tokens (fun s => s) [tokC9] 0 0 (fun _ => none) none).data := by
  decide

/-- **C9** (corrected).  For every truthy NFC-normalized lemma
(`nfc lem = lem`; every ASCII lemma qualifies), the concordance file
name written by `compile_html` is `concordance_` + `quote(lemma, ...)` +
`.html`, and this is exactly the URL the emitted client script computes
from the token's dataset lemma (the HTML-unescaped attribute value,
i.e. `nfc lem`) with `encodeURIComponent` — the two encoders' safe sets
coincide, so the client resolves the correct concordance file.  However
the rendered token element does not carry the encoded slug: its
`data-lemma` attribute holds the HTML-escaped normalized lemma (here on
a one-token segment with ASCII surface `x`).  For a lemma that is not
NFC-normalized the two sides need not agree — the file name
percent-encodes the raw lemma while the attribute holds the normalized
one — which is why the statement carries the `nfc lem = lem`
hypothesis. -/
theorem C9_amended_lemma_resolution (nfc : String → String) (lem : String)
    (h : lem ≠ "") (hnfc : nfc lem = lem) (hx : nfc "x" = "x") :
    js_load_concordance_target (nfc lem) = concordance_file_name lem ∧
    render_tokens nfc [{ surface := some (AVal.s "x"),
                         annotations := some [("lemma", AVal.s lem)] }] 0 0
        (fun _ => none) none =
      "<span class=\"token\" data-lemma=\"" ++ escapeHtml lem ++ "\">x</span>" := by
  constructor
  · rw [hnfc]
    unfold js_load_concordance_target concordance_file_name
    rw [encode_lemma_of_ne lem h, pythonQuote_eq_encodeURIComponent]
  · have hne : strIsEmpty lem = false := by
      cases hb : strIsEmpty lem
      · rfl
      · exact absurd ((strIsEmpty_iff lem).mp hb) h
    have htr : truthyAnn [("lemma", AVal.s lem)] "lemma" = some lem := by
      show (if strIsEmpty lem = true then none else some lem) = some lem
      rw [hne]
      rfl
    have h0 : render_tokens nfc [{ surface := some (AVal.s "x"),
                                   annotations := some [("lemma", AVal.s lem)] }]
          0 0 (fun _ => none) none =
        render_one_token nfc none none
          { surface := some (AVal.s "x"),
            annotations := some [("lemma", AVal.s lem)] } := rfl
    rw [h0]
    unfold render_one_token
    rw [show (!(is_lexical (surfaceStr (some (AVal.s "x"))) ||
        !(((some [("lemma", AVal.s lem)] : Option AMap).getD []).isEmpty))) = false
      from rfl]
    rw [if_neg Bool.false_ne_true]
    simp only [Option.getD_some, htr,
      show truthyAnn [("lemma", AVal.s lem)] "gloss" = none from rfl,
      show truthyAnn [("lemma", AVal.s lem)] "pos" = none from rfl,
      show truthyAnn [("lemma", AVal.s lem)] "mwe_id" = none from rfl]
    unfold token_display
    simp only [Option.getD_some,
      show truthyAnn [("lemma", AVal.s lem)] "pinyin" = none from rfl]
    simp only [List.append_nil, List.nil_append]
    rw [show String.intercalate " " ["token"] = "token" from rfl]
    rw [show ∀ a : String, String.intercalate " " [a] = a from fun a => rfl]
    rw [show escape nfc (surfaceStr (some (AVal.s "x"))) = escapeHtml (nfc "x")
      from rfl, hx]
    rw [show escape nfc lem = escapeHtml (nfc lem) from rfl, hnfc]
    rw [show escapeHtml "x" = "x" from rfl]
    exact span_wrap_eq (escapeHtml lem)

/-- Witness for C9: the double-quote lemma, concretely; all fixture
strings are ASCII, where NFC is the identity, so `nfc` is instantiated
with the identity function (for which both `nfc` hypotheses hold by
`rfl`). -/
theorem C9_amended_lemma_resolution_witness :
    ("\"" : String) ≠ "" ∧ (fun s => s) "\"" = "\"" ∧ (fun s => s) "x" = "x" ∧
    (js_load_concordance_target ((fun s => s) "\"") = concordance_file_name "\"" ∧
     render_tokens (fun s => s)
         [{ surface := some (AVal.s "x"),
            annotations := some [("lemma", AVal.s "\"")] }] 0 0
         (fun _ => none) none =
       "<span class=\"token\" data-lemma=\"" ++ escapeHtml "\"" ++ "\">x</span>") :=
  ⟨by decide, rfl, rfl,
    C9_amended_lemma_resolution (fun s => s) "\"" (by decide) rfl rfl⟩

/-- **C10** (confirmed).  For every document whose `pages` list is
empty, `compile_html` does not return a result: `total_pages` is forced
to `1` (`len(...) or 1`, line 614), the single loop iteration indexes
`pages[0]` of the empty list inside `_render_page` and raises
`IndexError` — after the output directory, the audio directory and the
three static assets have already been created on disk. -/
theorem C10_empty_pages_index_error (text : TextDoc) (h : text.pages = []) :
    compile_html text =
      ([FsOp.mkdirHtmlRoot, FsOp.mkdirAudioDir,
        FsOp.writeStatic "clara_styles_main.css",
        FsOp.writeStatic "clara_styles_concordance.css",
        FsOp.writeStatic "clara_scripts.js"],
       Except.error CompileErr.indexError) := by
  cases text with
  | mk l2 l1 title surface pages ann =>
    obtain rfl : pages = [] := h
    rfl

/-- Witness for C10: the empty document. -/
theorem C10_empty_pages_index_error_witness :
    ({} : TextDoc).pages = [] ∧
    compile_html {} =
      ([FsOp.mkdirHtmlRoot, FsOp.mkdirAudioDir,
        FsOp.writeStatic "clara_styles_main.css",
        FsOp.writeStatic "clara_styles_concordance.css",
        FsOp.writeStatic "clara_scripts.js"],
       Except.error CompileErr.indexError) :=
  ⟨rfl, C10_empty_pages_index_error {} rfl⟩
